import Mathlib

/-!
Shallow embedding of the device time-tracking ledger implemented by class
`TimeTracker` in `src/pi_control/time_tracker.py`.

Modelling conventions:
* Python `datetime` values are calendar tuples `DateTime`; subtraction of two
  datetimes goes through the proleptic-Gregorian ordinal exactly as in CPython
  (`_ymd2ord`), at one-second granularity (all claims use whole seconds).
* Python dicts are association lists with insertion-order semantics:
  assignment to an existing key keeps its position, a new key is appended
  (`aset`), which is exactly the observable behaviour of `dict`/`defaultdict`.
* `timedelta` durations and float second counters are modelled as integers.
* JSON documents are `JTree`; the constructor `JTree.bad` stands for a
  syntactically invalid fragment, and `wfJson` captures that `json.load`
  accepts a document only when every fragment of it is valid.
* A Python statement that raises an uncaught exception is modelled with
  `Except`/`Option`; the `error` payload of `update_status` carries the
  partially mutated state exactly as the interpreter leaves it.
-/

inductive Status where
  | running
  | online
  | offline
deriving DecidableEq, Repr

def statusName : Status → String
  | .running => "running"
  | .online => "online"
  | .offline => "offline"

structure DateTime where
  year : Nat
  month : Nat
  day : Nat
  hour : Nat
  minute : Nat
  second : Nat
deriving DecidableEq, Repr

def isLeap (y : Nat) : Bool :=
  y % 4 == 0 && (y % 100 != 0 || y % 400 == 0)

def daysInMonth (y m : Nat) : Nat :=
  match m with
  | 1 => 31 | 2 => if isLeap y then 29 else 28 | 3 => 31 | 4 => 30
  | 5 => 31 | 6 => 30 | 7 => 31 | 8 => 31 | 9 => 30 | 10 => 31
  | 11 => 30 | 12 => 31 | _ => 0

def daysBeforeMonth (y m : Nat) : Nat :=
  (match m with
   | 1 => 0 | 2 => 31 | 3 => 59 | 4 => 90 | 5 => 120 | 6 => 151 | 7 => 181
   | 8 => 212 | 9 => 243 | 10 => 273 | 11 => 304 | 12 => 334 | _ => 0)
  + (if 2 < m && isLeap y then 1 else 0)

def daysBeforeYear (y : Nat) : Nat :=
  (y - 1) * 365 + (y - 1) / 4 - (y - 1) / 100 + (y - 1) / 400

/-- CPython `datetime.toordinal()` (`_ymd2ord`). -/
def toOrdinal (d : DateTime) : Nat :=
  daysBeforeYear d.year + daysBeforeMonth d.year d.month + d.day

/-- Absolute second count of a datetime; differences of `toSec` are exactly
Python `datetime` subtraction in seconds. -/
def toSec (d : DateTime) : Int :=
  ((toOrdinal d * 86400 + d.hour * 3600 + d.minute * 60 + d.second : Nat) : Int)

def isValidDT (d : DateTime) : Bool :=
  decide (1 ≤ d.year ∧ d.year ≤ 9999 ∧ 1 ≤ d.month ∧ d.month ≤ 12 ∧
    1 ≤ d.day ∧ d.day ≤ daysInMonth d.year d.month ∧
    d.hour < 24 ∧ d.minute < 60 ∧ d.second < 60)

/-- Association-list lookup, the read of a Python dict subscript. -/
def alookup {α : Type} : List (String × α) → String → Option α
  | [], _ => none
  | (k, v) :: rest, key => if k = key then some v else alookup rest key

/-- Python dict assignment: replace in place, or append a new key. -/
def aset {α : Type} : List (String × α) → String → α → List (String × α)
  | [], key, v => [(key, v)]
  | (k, w) :: rest, key, v =>
      if k = key then (k, v) :: rest else (k, w) :: aset rest key v

/-- Python `del d[key]`. -/
def aremove {α : Type} : List (String × α) → String → List (String × α)
  | [], _ => []
  | (k, w) :: rest, key => if k = key then rest else (k, w) :: aremove rest key

def fmt2 (n : Int) : String :=
  if 0 ≤ n ∧ n < 10 then "0" ++ toString n else toString n

/-- `TimeTracker._format_timedelta`: `HH:MM:SS` with unbounded zero-padded
hours (Python `//` and `%` are floor operations). -/
def format_timedelta (n : Int) : String :=
  let hours := n.fdiv 3600
  let minutes := (n.emod 3600).fdiv 60
  let seconds := n.emod 60
  fmt2 hours ++ ":" ++ fmt2 minutes ++ ":" ++ fmt2 seconds

/-- One `self.history[device]` entry: the three standard counters created by
the defaultdict, plus any non-standard status keys a loaded file introduced
(writable only by `load_data`, readable only by `save_data`). -/
structure HistEntry where
  running : Int
  online : Int
  offline : Int
  extra : List (String × Int)
deriving DecidableEq, Repr

def HistEntry.zero : HistEntry := ⟨0, 0, 0, []⟩

def HistEntry.get (e : HistEntry) : Status → Int
  | .running => e.running
  | .online => e.online
  | .offline => e.offline

def HistEntry.add (e : HistEntry) (st : Status) (d : Int) : HistEntry :=
  match st with
  | .running => { e with running := e.running + d }
  | .online => { e with online := e.online + d }
  | .offline => { e with offline := e.offline + d }

/-- A well-formed daily-record cell `{'running': _, 'online': _, 'offline': _}`. -/
structure SRec where
  running : Int
  online : Int
  offline : Int
deriving DecidableEq, Repr

def SRec.zero : SRec := ⟨0, 0, 0⟩

def SRec.get (r : SRec) : Status → Int
  | .running => r.running
  | .online => r.online
  | .offline => r.offline

def SRec.add (r : SRec) (st : Status) (d : Int) : SRec :=
  match st with
  | .running => { r with running := r.running + d }
  | .online => { r with online := r.online + d }
  | .offline => { r with offline := r.offline + d }

/-- JSON document fragments; `bad` is a fragment that is not valid JSON. -/
inductive JTree where
  | num (n : Int)
  | str (s : String)
  | arr (xs : List JTree)
  | obj (fields : List (String × JTree))
  | bad

mutual
/-- `json.load` succeeds on a document iff every fragment of it is valid. -/
def wfJson : JTree → Bool
  | .num _ => true
  | .str _ => true
  | .arr xs => wfJsonList xs
  | .obj fs => wfJsonFields fs
  | .bad => false
def wfJsonList : List JTree → Bool
  | [] => true
  | x :: xs => wfJson x && wfJsonList xs
def wfJsonFields : List (String × JTree) → Bool
  | [] => true
  | (_, v) :: fs => wfJson v && wfJsonFields fs
end

/-- An in-memory `daily_records[date][device]` value: either the well-formed
three-counter dict every `update_status` write produces, or a value of some
other shape stored verbatim by `load_data` (kept only when it is not the
canonical shape, so the representation is unambiguous). -/
inductive DVal where
  | wf (r : SRec)
  | raw (j : JTree)

/-- The mutable state of a `TimeTracker` instance.  The re-entrant lock and
the file path carry no ledger information and are not modelled; `now` is an
explicit parameter wherever the source calls `datetime.now()`. -/
structure TrackerState where
  start_time : DateTime
  current_status : List (String × Status × DateTime)
  history : List (String × HistEntry)
  daily_records : List (String × List (String × DVal))

/-- State of `TimeTracker.__init__` before `load_data` runs: empty tables,
`start_time = datetime.now()`. -/
def initTracker (now : DateTime) : TrackerState :=
  { start_time := now, current_status := [], history := [], daily_records := [] }

def pad2 (n : Nat) : List Char :=
  [Nat.digitChar (n / 10 % 10), Nat.digitChar (n % 10)]

def pad4 (n : Nat) : List Char :=
  [Nat.digitChar (n / 1000 % 10), Nat.digitChar (n / 100 % 10),
   Nat.digitChar (n / 10 % 10), Nat.digitChar (n % 10)]

/-- `strftime('%Y-%m-%d')`. -/
def dateKey (d : DateTime) : String :=
  ⟨pad4 d.year ++ '-' :: pad2 d.month ++ '-' :: pad2 d.day⟩

/-- Python `j[statusName st] += d` on a raw (non-canonical) loaded value:
succeeds only on a dict that maps that key to a number; any other shape
raises (`KeyError`/`TypeError`), modelled as `none`. -/
def rawAddStatus (j : JTree) (st : Status) (d : Int) : Option JTree :=
  match j with
  | .obj fields =>
      match alookup fields (statusName st) with
      | some (.num v) => some (.obj (aset fields (statusName st) (.num (v + d))))
      | _ => none
  | _ => none

def dvalAdd (v : DVal) (st : Status) (d : Int) : Option DVal :=
  match v with
  | .wf r => some (.wf (r.add st d))
  | .raw j => (rawAddStatus j st d).map .raw

/-- `self.daily_records[today][device][old_status] += duration`: the two
defaultdict levels vivify date and device entries, then the innermost `+=`
runs (and can raise on a malformed loaded value, in which case neither
defaultdict actually gained a new key, so no mutation survives). -/
def dailyAdd (tbl : List (String × List (String × DVal))) (date device : String)
    (st : Status) (d : Int) : Option (List (String × List (String × DVal))) :=
  let inner := (alookup tbl date).getD []
  let v := (alookup inner device).getD (.wf SRec.zero)
  match dvalAdd v st d with
  | none => none
  | some v' => some (aset tbl date (aset inner device v'))

/-- `TimeTracker.update_status(device_name, new_status)` with `datetime.now()`
passed explicitly.  On the exception path (malformed loaded daily value) the
cumulative table has already been updated and `current_status` has not,
exactly as the interpreter leaves the object. -/
def update_status (device_name : String) (new_status : Status) (now : DateTime)
    (s : TrackerState) : Except TrackerState TrackerState :=
  let today := dateKey now
  match alookup s.current_status device_name with
  | none =>
      .ok { s with current_status := aset s.current_status device_name (new_status, now) }
  | some (old_status, since) =>
      let dur0 := toSec now - toSec since
      let duration := if dur0 < 0 then 0 else dur0
      let hist' := aset s.history device_name
        (((alookup s.history device_name).getD HistEntry.zero).add old_status duration)
      match dailyAdd s.daily_records today device_name old_status duration with
      | none => .error { s with history := hist' }
      | some d' =>
          .ok { s with
                history := hist'
                daily_records := d'
                current_status := aset s.current_status device_name (new_status, now) }

structure DeviceStats where
  running : String
  online : String
  offline : String
  running_seconds : Int
  online_seconds : Int
  offline_seconds : Int
  current_status : Status
  current_duration : String
deriving DecidableEq, Repr

/-- `TimeTracker.get_device_stats(device_name)` with `datetime.now()` passed
explicitly.  Besides the returned dict, reading `self.history[device_name]`
on the defaultdict inserts a zero entry for an unknown device, so the
possibly-grown state is returned as well. -/
def get_device_stats (device_name : String) (now : DateTime) (s : TrackerState) :
    DeviceStats × TrackerState :=
  let cscd : Status × Int :=
    match alookup s.current_status device_name with
    | none => (.offline, 0)
    | some (st, since) =>
        let d := toSec now - toSec since
        (st, if d < 0 then 0 else d)
  let cs := cscd.1
  let cd := cscd.2
  let hist' := if (alookup s.history device_name).isSome then s.history
               else s.history ++ [(device_name, HistEntry.zero)]
  let e := (alookup s.history device_name).getD HistEntry.zero
  let total_running := e.running + (if cs = .running then cd else 0)
  let total_online := e.online + (if cs = .online then cd else 0)
  let total_offline := e.offline + (if cs = .running ∨ cs = .online then 0 else cd)
  (⟨format_timedelta total_running, format_timedelta total_online,
    format_timedelta total_offline, total_running, total_online, total_offline,
    cs, format_timedelta cd⟩,
   { s with history := hist' })

/-- One call of the ledger's public mutating/query API. -/
inductive Op where
  | record (dev : String) (st : Status) (t : DateTime)
  | stats (dev : String) (t : DateTime)

def runOp (s : TrackerState) : Op → Except TrackerState TrackerState
  | .record dev st t => update_status dev st t s
  | .stats dev t => .ok (get_device_stats dev t s).2

def runOps : List Op → TrackerState → Except TrackerState TrackerState
  | [], s => .ok s
  | op :: rest, s =>
      match runOp s op with
      | .ok s' => runOps rest s'
      | .error e => .error e

def isOk : Except TrackerState TrackerState → Bool
  | .ok _ => true
  | .error _ => false

def runState : Except TrackerState TrackerState → TrackerState
  | .ok s => s
  | .error s => s

def histTotal (s : TrackerState) (dev : String) : Int :=
  let e := (alookup s.history dev).getD HistEntry.zero
  e.running + e.online + e.offline

def isoChars (d : DateTime) : List Char :=
  pad4 d.year ++ '-' :: pad2 d.month ++ '-' :: pad2 d.day ++ 'T' ::
  pad2 d.hour ++ ':' :: pad2 d.minute ++ ':' :: pad2 d.second

/-- `datetime.isoformat()` at second granularity. -/
def isoFormat (d : DateTime) : String := ⟨isoChars d⟩

def fromIsoChars : List Char → Option DateTime
  | [y1, y2, y3, y4, a, m1, m2, b, d1, d2, t, h1, h2, c, n1, n2, e, s1, s2] =>
    if a = '-' ∧ b = '-' ∧ t = 'T' ∧ c = ':' ∧ e = ':' ∧
       y1.isDigit ∧ y2.isDigit ∧ y3.isDigit ∧ y4.isDigit ∧
       m1.isDigit ∧ m2.isDigit ∧ d1.isDigit ∧ d2.isDigit ∧
       h1.isDigit ∧ h2.isDigit ∧ n1.isDigit ∧ n2.isDigit ∧
       s1.isDigit ∧ s2.isDigit then
      let dt : DateTime :=
        ⟨1000 * (y1.toNat - 48) + 100 * (y2.toNat - 48) + 10 * (y3.toNat - 48) + (y4.toNat - 48),
         10 * (m1.toNat - 48) + (m2.toNat - 48),
         10 * (d1.toNat - 48) + (d2.toNat - 48),
         10 * (h1.toNat - 48) + (h2.toNat - 48),
         10 * (n1.toNat - 48) + (n2.toNat - 48),
         10 * (s1.toNat - 48) + (s2.toNat - 48)⟩
      if isValidDT dt then some dt else none
    else none
  | _ => none

/-- `datetime.fromisoformat`, restricted to the canonical `isoformat()`
shape `YYYY-MM-DDTHH:MM:SS` that `save_data` writes; alternative spellings
the CPython parser also accepts never occur in this program's own files and
are treated as not parsing. -/
def fromIso (s : String) : Option DateTime := fromIsoChars s.data

def encodeHistEntry (e : HistEntry) : JTree :=
  .obj ([("running", .num e.running), ("online", .num e.online),
         ("offline", .num e.offline)] ++ e.extra.map (fun p => (p.1, JTree.num p.2)))

def encodeDVal : DVal → JTree
  | .wf r => .obj [("running", .num r.running), ("online", .num r.online),
                   ("offline", .num r.offline)]
  | .raw j => j

/-- `TimeTracker.save_data`: the JSON document written (atomically) to disk,
with `datetime.now()` for `last_save` passed explicitly.  Serialization of a
tracker state itself cannot fail, so the I/O failure branch carries no
ledger content to model. -/
def save_data (now : DateTime) (s : TrackerState) : JTree :=
  .obj [("start_time", .str (isoFormat s.start_time)),
        ("last_save", .str (isoFormat now)),
        ("history", .obj (s.history.map (fun p => (p.1, encodeHistEntry p.2)))),
        ("daily_records", .obj (s.daily_records.map (fun p =>
           (p.1, JTree.obj (p.2.map (fun q => (q.1, encodeDVal q.2)))))))]

def canonTriple : JTree → Option SRec
  | .obj [("running", .num a), ("online", .num b), ("offline", .num c)] =>
      some ⟨a, b, c⟩
  | _ => none

/-- `load_data` stores a loaded daily statuses value verbatim; the canonical
three-counter dict is represented typed, anything else stays raw. -/
def decodeDVal (j : JTree) : DVal :=
  match canonTriple j with
  | some r => .wf r
  | none => .raw j

def HistEntry.setByName (e : HistEntry) (k : String) (v : Int) : HistEntry :=
  if k = "running" then { e with running := v }
  else if k = "online" then { e with online := v }
  else if k = "offline" then { e with offline := v }
  else { e with extra := aset e.extra k v }

/-- Longest leading run of numeric fields of a statuses dict and whether the
whole dict was numeric: `timedelta(seconds=non-number)` raises after the
earlier assignments already happened. -/
def numLead : List (String × JTree) → List (String × Int) × Bool
  | [] => ([], true)
  | (k, .num n) :: rest =>
      let r := numLead rest
      ((k, n) :: r.1, r.2)
  | _ :: _ => ([], false)

def applyStatuses : HistEntry → List (String × Int) → HistEntry
  | e, [] => e
  | e, (k, v) :: rest => applyStatuses (e.setByName k v) rest

/-- The `for device, statuses in data['history'].items()` loop.  A device is
vivified in `self.history` only once an assignment runs; a shape error
aborts the loop keeping what was already assigned. -/
def loadHistDevices : List (String × JTree) → List (String × HistEntry) →
    List (String × HistEntry) × Bool
  | [], h => (h, true)
  | (dev, .obj statuses) :: rest, h =>
      let p := numLead statuses
      let h' := if p.1.isEmpty then h
                else aset h dev (applyStatuses ((alookup h dev).getD HistEntry.zero) p.1)
      if p.2 then loadHistDevices rest h' else (h', false)
  | (_, _) :: _, h => (h, false)

/-- The `for date, devices in data['daily_records'].items()` loop: each
device's statuses value is assigned verbatim without validation; a date
whose devices value is not a dict raises, keeping earlier dates. -/
def loadDailyDates : List (String × JTree) →
    List (String × List (String × DVal)) →
    List (String × List (String × DVal)) × Bool
  | [], t => (t, true)
  | (date, .obj devs) :: rest, t =>
      if devs.isEmpty then loadDailyDates rest t
      else
        let inner := (alookup t date).getD []
        let inner' := devs.foldl (fun acc q => aset acc q.1 (decodeDVal q.2)) inner
        loadDailyDates rest (aset t date inner')
  | (_, _) :: _, t => (t, false)

/-- `datetime.fromisoformat(data['start_time'])` under `except ValueError:
pass`; a non-string raises `TypeError`, which that handler does not catch. -/
def loadStart (j : JTree) (s : TrackerState) : TrackerState × Bool :=
  match j with
  | .str txt =>
      match fromIso txt with
      | some d => ({ s with start_time := d }, true)
      | none => (s, true)
  | _ => (s, false)

/-- Body of `load_data` after a successful `json.load`: the three sections
are loaded in source order under one `try/except`, so an exception in a
later section keeps everything an earlier section already assigned.
`JTree.obj` field lists model parsed dicts, so keys are unique.  A non-dict
top-level document assigns nothing (its membership tests either fail or
raise into the same handler), modelled as the unchanged state. -/
def loadParsed (data : JTree) (s : TrackerState) : TrackerState :=
  match data with
  | .obj fields =>
      let hp : List (String × HistEntry) × Bool :=
        match alookup fields "history" with
        | some (.obj devs) => loadHistDevices devs s.history
        | some _ => (s.history, false)
        | none => (s.history, true)
      let s1 := { s with history := hp.1 }
      if hp.2 then
        let dp : List (String × List (String × DVal)) × Bool :=
          match alookup fields "daily_records" with
          | some (.obj dates) => loadDailyDates dates s1.daily_records
          | some _ => (s1.daily_records, false)
          | none => (s1.daily_records, true)
        let s2 := { s1 with daily_records := dp.1 }
        if dp.2 then
          match alookup fields "start_time" with
          | some j => (loadStart j s2).1
          | none => s2
        else s2
      else s1
  | _ => s

/-- `TimeTracker.load_data`: `none` is a missing file; a document containing
any syntactically invalid fragment fails `json.load` wholesale, and the
single `try/except` then leaves the state untouched. -/
def load_data (file : Option JTree) (s : TrackerState) : TrackerState :=
  match file with
  | none => s
  | some t => if wfJson t then loadParsed t s else s

/-- `TimeTracker.reset_stats(device_name)` with `datetime.now()` passed
explicitly; the second component is the snapshot the closing `save_data`
writes.  Python truthiness: `None` and the empty string both select the
full-reset branch. -/
def reset_stats (device_name : Option String) (now : DateTime) (s : TrackerState) :
    TrackerState × JTree :=
  let s' :=
    match device_name with
    | some d =>
        if d = "" then initTracker now
        else
          { s with
            history := if (alookup s.history d).isSome then aset s.history d HistEntry.zero
                       else s.history
            current_status := aremove s.current_status d }
    | none => initTracker now
  (s', save_data now s')

structure Date where
  year : Nat
  month : Nat
  day : Nat
deriving DecidableEq, Repr

def dateLeb (a b : Date) : Bool :=
  decide (a.year < b.year ∨ (a.year = b.year ∧
    (a.month < b.month ∨ (a.month = b.month ∧ a.day ≤ b.day))))

def dateLtb (a b : Date) : Bool :=
  decide (a.year < b.year ∨ (a.year = b.year ∧
    (a.month < b.month ∨ (a.month = b.month ∧ a.day < b.day))))

def dig (c : Char) : Nat := c.toNat - 48

/-- `%d` of `_strptime`: `3[01]|[12]\d|0[1-9]` tried before `[1-9]`, and the
whole string must be consumed ("unconverted data remains"). -/
def parseDayEnd : List Char → Option Nat
  | [a, b] =>
      if (a = '3' ∧ (b = '0' ∨ b = '1')) ∨ ((a = '1' ∨ a = '2') ∧ b.isDigit) ∨
         (a = '0' ∧ '1' ≤ b ∧ b ≤ '9') then some (10 * dig a + dig b) else none
  | [a] => if '1' ≤ a ∧ a ≤ '9' then some (dig a) else none
  | _ => none

/-- `%m`: `1[0-2]|0[1-9]` (two digits) tried before `[1-9]` (one digit); the
two branches need a dash at different positions, so they are mutually
exclusive and ordered trial matches the regex backtracking. -/
def parseMonthDay (cs : List Char) : Option (Nat × Nat) :=
  let twoDigit : Option (Nat × Nat) :=
    match cs with
    | a :: b :: '-' :: rest =>
        if (a = '1' ∧ (b = '0' ∨ b = '1' ∨ b = '2')) ∨ (a = '0' ∧ '1' ≤ b ∧ b ≤ '9')
        then (parseDayEnd rest).map (fun d => (10 * dig a + dig b, d))
        else none
    | _ => none
  match twoDigit with
  | some r => some r
  | none =>
      match cs with
      | a :: '-' :: rest =>
          if '1' ≤ a ∧ a ≤ '9' then (parseDayEnd rest).map (fun d => (dig a, d))
          else none
      | _ => none

/-- `datetime.strptime(date_str, '%Y-%m-%d')` (`%Y` matches exactly four
digits) followed by the `datetime` constructor's range validation. -/
def parseDateKey (s : String) : Option Date :=
  match s.data with
  | y1 :: y2 :: y3 :: y4 :: '-' :: rest =>
      if y1.isDigit ∧ y2.isDigit ∧ y3.isDigit ∧ y4.isDigit then
        match parseMonthDay rest with
        | some (m, d) =>
            let y := 1000 * dig y1 + 100 * dig y2 + 10 * dig y3 + dig y4
            if 1 ≤ y ∧ d ≤ daysInMonth y m then some ⟨y, m, d⟩ else none
        | none => none
      else none
  | _ => none

/-- `month_start <= date_obj < month_end` with `datetime` comparison, which
is lexicographic on the calendar fields. -/
def inMonthRange (year month : Nat) (d : Date) : Bool :=
  let mend : Date := if month = 12 then ⟨year + 1, 1, 1⟩ else ⟨year, month + 1, 1⟩
  dateLeb ⟨year, month, 1⟩ d && dateLtb d mend

/-- `monthly_data[device][status] += seconds` over the items of a raw loaded
statuses dict: the accumulator entry is a plain three-key dict, so a
non-standard status key raises `KeyError` and a non-numeric value raises
`TypeError`, neither of which the `except ValueError` handler catches. -/
def srecAddPairsRaw : SRec → List (String × JTree) → Option SRec
  | r, [] => some r
  | r, (k, .num v) :: rest =>
      if k = "running" then srecAddPairsRaw { r with running := r.running + v } rest
      else if k = "online" then srecAddPairsRaw { r with online := r.online + v } rest
      else if k = "offline" then srecAddPairsRaw { r with offline := r.offline + v } rest
      else none
  | _, (_, _) :: _ => none

def monthlyAddDVal (acc : List (String × SRec)) (dev : String) (v : DVal) :
    Option (List (String × SRec)) :=
  match v with
  | .wf r =>
      let base := (alookup acc dev).getD SRec.zero
      some (aset acc dev ⟨base.running + r.running, base.online + r.online,
                          base.offline + r.offline⟩)
  | .raw (.obj fields) =>
      if fields.isEmpty then some acc
      else (srecAddPairsRaw ((alookup acc dev).getD SRec.zero) fields).map
             (fun r => aset acc dev r)
  | .raw _ => none

def monthlyAddDevices : List (String × SRec) → List (String × DVal) →
    Option (List (String × SRec))
  | acc, [] => some acc
  | acc, (dev, v) :: rest =>
      match monthlyAddDVal acc dev v with
      | some acc' => monthlyAddDevices acc' rest
      | none => none

def monthlyFold (year month : Nat) : List (String × List (String × DVal)) →
    List (String × SRec) → Option (List (String × SRec))
  | [], acc => some acc
  | (dateStr, devs) :: rest, acc =>
      match parseDateKey dateStr with
      | none => monthlyFold year month rest acc
      | some d =>
          if inMonthRange year month d then
            match monthlyAddDevices acc devs with
            | some acc' => monthlyFold year month rest acc'
            | none => none
          else monthlyFold year month rest acc

/-- `TimeTracker.get_monthly_stats(year, month)`; `none` is an uncaught
exception: `datetime(year, month, 1)` / `datetime(year + 1, 1, 1)` out of
range, or a malformed loaded daily value hit during summation. -/
def get_monthly_stats (year month : Nat) (s : TrackerState) :
    Option (List (String × SRec)) :=
  if 1 ≤ year ∧ year ≤ 9999 ∧ 1 ≤ month ∧ month ≤ 12 then
    if month = 12 ∧ year = 9999 then none
    else monthlyFold year month s.daily_records []
  else none

def nodupKeys {α : Type} : List (String × α) → Bool
  | [] => true
  | (k, _) :: rest => !(rest.any (fun p => p.1 == k)) && nodupKeys rest

def extraWF (l : List (String × Int)) : Bool :=
  nodupKeys l && l.all (fun p =>
    !(p.1 == "running") && !(p.1 == "online") && !(p.1 == "offline"))

def dvalWF : DVal → Bool
  | .wf _ => true
  | .raw j => wfJson j && (canonTriple j).isNone

/-- States a `TimeTracker` instance can actually be in: dict keys unique,
`extra` keys only non-standard (they arise only in `load_data`, which files
standard keys into the record fields), every date entry non-empty (the
defaultdict vivifies a date only together with a device), raw daily values
only of non-canonical shape (the canonical shape decodes to `wf`) and
themselves valid JSON (they came out of `json.load`), and a `datetime`-valid
`start_time`. -/
def stateWF (s : TrackerState) : Bool :=
  isValidDT s.start_time &&
  nodupKeys s.history && s.history.all (fun p => extraWF p.2.extra) &&
  nodupKeys s.daily_records &&
  s.daily_records.all (fun p =>
    !(p.2.isEmpty) && nodupKeys p.2 && p.2.all (fun q => dvalWF q.2))

/-- Every in-memory daily value has the well-formed three-counter shape. -/
def dailyAllWF (t : List (String × List (String × DVal))) : Bool :=
  t.all (fun p => p.2.all (fun q =>
    match q.2 with
    | .wf _ => true
    | .raw _ => false))

def entryNonneg (e : HistEntry) : Bool :=
  decide (0 ≤ e.running) && decide (0 ≤ e.online) && decide (0 ≤ e.offline) &&
  e.extra.all (fun p => decide (0 ≤ p.2))

def dvalNonnegWF : DVal → Bool
  | .wf r => decide (0 ≤ r.running) && decide (0 ≤ r.online) && decide (0 ≤ r.offline)
  | .raw _ => false

/-- All duration counters non-negative and all daily values well-formed. -/
def stateNonneg (s : TrackerState) : Bool :=
  s.history.all (fun p => entryNonneg p.2) &&
  s.daily_records.all (fun p => p.2.all (fun q => dvalNonnegWF q.2))

def mlookup (r : List (String × SRec)) (dev : String) (st : Status) : Int :=
  ((alookup r dev).getD SRec.zero).get st

def dvalGet (v : DVal) (st : Status) : Int :=
  match v with
  | .wf r => r.get st
  | .raw _ => 0

def dailyLookup (tbl : List (String × List (String × DVal)))
    (date dev : String) (st : Status) : Int :=
  dvalGet ((alookup ((alookup tbl date).getD []) dev).getD (.wf SRec.zero)) st

/-- The claim's description of the monthly aggregation: sum the per-device
per-state seconds over exactly those daily-record keys that parse as a date
inside the given calendar month. -/
def monthSumSpec (daily : List (String × List (String × DVal))) (year month : Nat)
    (dev : String) (st : Status) : Int :=
  ((daily.filter (fun p =>
      match parseDateKey p.1 with
      | some d => inMonthRange year month d
      | none => false)).map (fun p =>
        ((p.2.filter (fun q => q.1 == dev)).map (fun q => dvalGet q.2 st)).sum)).sum

theorem alookup_aset_self {α : Type} (l : List (String × α)) (k : String) (v : α) :
    alookup (aset l k v) k = some v := by
  induction l with
  | nil => simp [aset, alookup]
  | cons p rest ih =>
      obtain ⟨k', w⟩ := p
      by_cases h : k' = k
      · simp [aset, alookup, h]
      · simp [aset, alookup, h, ih]

theorem alookup_aset_ne {α : Type} (l : List (String × α)) (k k' : String) (v : α)
    (h : k ≠ k') : alookup (aset l k v) k' = alookup l k' := by
  induction l with
  | nil => simp [aset, alookup, h]
  | cons p rest ih =>
      obtain ⟨k'', w⟩ := p
      by_cases h2 : k'' = k
      · subst h2
        simp [aset, alookup, h]
      · simp [aset, alookup, h2, ih]

theorem alookup_mem {α : Type} (l : List (String × α)) (k : String) (v : α)
    (h : alookup l k = some v) : (k, v) ∈ l := by
  induction l with
  | nil => simp [alookup] at h
  | cons p rest ih =>
      obtain ⟨k', w⟩ := p
      by_cases h2 : k' = k
      · subst h2
        simp [alookup] at h
        simp [h]
      · simp [alookup, h2] at h
        exact List.mem_cons_of_mem _ (ih h)

theorem aset_of_none {α : Type} (l : List (String × α)) (k : String) (v : α)
    (h : alookup l k = none) : aset l k v = l ++ [(k, v)] := by
  induction l with
  | nil => simp [aset]
  | cons p rest ih =>
      obtain ⟨k', w⟩ := p
      by_cases h2 : k' = k
      · simp [alookup, h2] at h
      · simp [alookup, h2] at h
        simp [aset, h2, ih h]

theorem alookup_append_of_none {α : Type} (l1 l2 : List (String × α)) (k : String)
    (h : alookup l1 k = none) : alookup (l1 ++ l2) k = alookup l2 k := by
  induction l1 with
  | nil => simp
  | cons p rest ih =>
      obtain ⟨k', w⟩ := p
      by_cases h2 : k' = k
      · simp [alookup, h2] at h
      · simp [alookup, h2] at h ⊢
        exact ih h

theorem all_aset {α : Type} (p : String × α → Bool) (l : List (String × α))
    (k : String) (v : α) (h1 : l.all p = true) (h2 : p (k, v) = true) :
    (aset l k v).all p = true := by
  induction l with
  | nil => simp [aset, h2]
  | cons q rest ih =>
      obtain ⟨k', w⟩ := q
      simp only [List.all_cons, Bool.and_eq_true] at h1
      by_cases h3 : k' = k
      · simp [aset, h3, h2, h1.2]
      · simp [aset, h3, h1.1, ih h1.2]

theorem histTotal_add (e : HistEntry) (st : Status) (d : Int) :
    (e.add st d).running + (e.add st d).online + (e.add st d).offline =
      e.running + e.online + e.offline + d := by
  cases st <;> simp [HistEntry.add] <;> ring

theorem srec_get_add_self (r : SRec) (st : Status) (d : Int) :
    (r.add st d).get st = r.get st + d := by
  cases st <;> simp [SRec.add, SRec.get]

/-- Shared step fact: `update_status` on a device with an open transition and
a well-formed daily cell closes the transition, adds the clamped elapsed
time to both accumulators, and re-opens at `now`. -/
theorem update_status_step (s : TrackerState) (dev : String) (S ns : Status)
    (t1 t2 : DateTime) (r : SRec)
    (hcur : alookup s.current_status dev = some (S, t1))
    (hwf : (alookup ((alookup s.daily_records (dateKey t2)).getD []) dev).getD
             (.wf SRec.zero) = .wf r)
    (hle : toSec t1 ≤ toSec t2) :
    update_status dev ns t2 s = .ok { s with
      history := aset s.history dev
        (((alookup s.history dev).getD HistEntry.zero).add S (toSec t2 - toSec t1))
      daily_records := aset s.daily_records (dateKey t2)
        (aset ((alookup s.daily_records (dateKey t2)).getD []) dev
          (.wf (r.add S (toSec t2 - toSec t1))))
      current_status := aset s.current_status dev (ns, t2) } := by
  have h0 : ¬ (toSec t2 - toSec t1 < 0) := by omega
  simp [update_status, dailyAdd, dvalAdd, hcur, hwf, h0]

/-- C6: closing a transition attributes the whole elapsed time to the daily
bucket of the closing call's calendar date, for device `dev` and the old
state `S`, and (by the shape of the targeted `aset` updates) touches no
other date, device or state bucket. -/
theorem daily_attribution (s : TrackerState) (dev : String) (S S' : Status)
    (t1 t2 : DateTime) (r : SRec)
    (hcur : alookup s.current_status dev = some (S, t1))
    (hwf : (alookup ((alookup s.daily_records (dateKey t2)).getD []) dev).getD
             (.wf SRec.zero) = .wf r)
    (hle : toSec t1 ≤ toSec t2) :
    update_status dev S' t2 s = .ok { s with
      history := aset s.history dev
        (((alookup s.history dev).getD HistEntry.zero).add S (toSec t2 - toSec t1))
      daily_records := aset s.daily_records (dateKey t2)
        (aset ((alookup s.daily_records (dateKey t2)).getD []) dev
          (.wf (r.add S (toSec t2 - toSec t1))))
      current_status := aset s.current_status dev (S', t2) } ∧
    dailyLookup (runState (update_status dev S' t2 s)).daily_records
        (dateKey t2) dev S =
      dailyLookup s.daily_records (dateKey t2) dev S + (toSec t2 - toSec t1) := by
  have hstep := update_status_step s dev S S' t1 t2 r hcur hwf hle
  refine ⟨hstep, ?_⟩
  rw [hstep]
  simp [runState, dailyLookup, alookup_aset_self, hwf, dvalGet, srec_get_add_self]

/-- Witness for C6, spanning midnight: a transition opened 2024-01-15
23:59:50 and closed 2024-01-16 00:00:10 books all 20 seconds on 2024-01-16. -/
theorem daily_attribution_witness :
    dailyLookup (runState (update_status "PI-65" .offline ⟨2024, 1, 16, 0, 0, 10⟩
        { start_time := ⟨2024, 1, 15, 0, 0, 0⟩,
          current_status := [("PI-65", .running, ⟨2024, 1, 15, 23, 59, 50⟩)],
          history := [], daily_records := [] })).daily_records
      (dateKey ⟨2024, 1, 16, 0, 0, 10⟩) "PI-65" .running = 0 + 20 := by
  have h := (daily_attribution
    { start_time := ⟨2024, 1, 15, 0, 0, 0⟩,
      current_status := [("PI-65", .running, ⟨2024, 1, 15, 23, 59, 50⟩)],
      history := [], daily_records := [] }
    "PI-65" .running .offline ⟨2024, 1, 15, 23, 59, 50⟩ ⟨2024, 1, 16, 0, 0, 10⟩
    SRec.zero (by rfl) (by rfl) (by decide)).2
  simpa using h

/-- C9: a `record` call whose status equals the currently open one still
flushes the elapsed time into both accumulators and resets `since`, leaving
the tables exactly as a call with any other new status `S'` would. -/
theorem same_status_record_flushes (s : TrackerState) (dev : String) (S S' : Status)
    (t1 t2 : DateTime) (r : SRec)
    (hcur : alookup s.current_status dev = some (S, t1))
    (hwf : (alookup ((alookup s.daily_records (dateKey t2)).getD []) dev).getD
             (.wf SRec.zero) = .wf r)
    (hle : toSec t1 ≤ toSec t2) :
    update_status dev S t2 s = .ok { s with
      history := aset s.history dev
        (((alookup s.history dev).getD HistEntry.zero).add S (toSec t2 - toSec t1))
      daily_records := aset s.daily_records (dateKey t2)
        (aset ((alookup s.daily_records (dateKey t2)).getD []) dev
          (.wf (r.add S (toSec t2 - toSec t1))))
      current_status := aset s.current_status dev (S, t2) } ∧
    (runState (update_status dev S t2 s)).history =
      (runState (update_status dev S' t2 s)).history ∧
    (runState (update_status dev S t2 s)).daily_records =
      (runState (update_status dev S' t2 s)).daily_records := by
  have h1 := update_status_step s dev S S t1 t2 r hcur hwf hle
  have h2 := update_status_step s dev S S' t1 t2 r hcur hwf hle
  refine ⟨h1, ?_, ?_⟩ <;> rw [h1, h2] <;> rfl

theorem same_status_record_flushes_witness :
    alookup (runState (update_status "PI-65" .running ⟨2024, 1, 15, 10, 0, 40⟩
        { start_time := ⟨2024, 1, 15, 0, 0, 0⟩,
          current_status := [("PI-65", .running, ⟨2024, 1, 15, 10, 0, 30⟩)],
          history := [("PI-65", ⟨7, 0, 0, []⟩)], daily_records := [] })).history
      "PI-65" = some ⟨17, 0, 0, []⟩ := by
  have h := (same_status_record_flushes
    { start_time := ⟨2024, 1, 15, 0, 0, 0⟩,
      current_status := [("PI-65", .running, ⟨2024, 1, 15, 10, 0, 30⟩)],
      history := [("PI-65", ⟨7, 0, 0, []⟩)], daily_records := [] }
    "PI-65" .running .offline ⟨2024, 1, 15, 10, 0, 30⟩ ⟨2024, 1, 15, 10, 0, 40⟩
    SRec.zero (by rfl) (by rfl) (by decide)).1
  rw [h]
  rfl

/-- C2 (counterexample): querying a never-recorded device is not free of
mutation — reading `self.history[device]` on the defaultdict inserts a zero
entry, changing the ledger's history table. -/
theorem stats_mutates_on_unknown_device :
    ((get_device_stats "PI-65" ⟨2024, 1, 15, 10, 0, 0⟩
        (initTracker ⟨2024, 1, 15, 10, 0, 0⟩)).2).history ≠
      (initTracker ⟨2024, 1, 15, 10, 0, 0⟩).history := by
  decide

/-- C2 (amended): two `stats` calls with the same `now` return identical
results and the second changes nothing; a single call leaves the current
transitions, the daily records, `start_time` and every known device's
cumulative entry unchanged, the only possible mutation being the vivified
zero history entry for an unknown queried device. -/
theorem stats_idempotent (dev : String) (now : DateTime) (s : TrackerState) :
    (get_device_stats dev now (get_device_stats dev now s).2).1 =
      (get_device_stats dev now s).1 ∧
    (get_device_stats dev now (get_device_stats dev now s).2).2 =
      (get_device_stats dev now s).2 ∧
    (get_device_stats dev now s).2.current_status = s.current_status ∧
    (get_device_stats dev now s).2.daily_records = s.daily_records ∧
    (get_device_stats dev now s).2.start_time = s.start_time ∧
    (get_device_stats dev now s).2.history =
      (if (alookup s.history dev).isSome then s.history
       else s.history ++ [(dev, HistEntry.zero)]) := by
  cases h : alookup s.history dev with
  | some e =>
      constructor
      · simp [get_device_stats, h]
      · simp [get_device_stats, h]
  | none =>
      have h2 : alookup (s.history ++ [(dev, HistEntry.zero)]) dev =
          some HistEntry.zero := by
        rw [alookup_append_of_none _ _ _ h]
        simp [alookup]
      constructor
      · simp [get_device_stats, h, h2]
      · simp [get_device_stats, h, h2]

theorem alookup_eq_none_of_no_key {α : Type} (l : List (String × α)) (k : String)
    (h : l.any (fun p => p.1 == k) = false) : alookup l k = none := by
  induction l with
  | nil => rfl
  | cons p rest ih =>
      obtain ⟨k', w⟩ := p
      simp only [List.any_cons, Bool.or_eq_false_iff, beq_eq_false_iff_ne] at h
      simp [alookup, h.1, ih (by simpa using h.2)]

theorem alookup_aremove_self {α : Type} (l : List (String × α)) (k : String)
    (h : nodupKeys l = true) : alookup (aremove l k) k = none := by
  induction l with
  | nil => rfl
  | cons p rest ih =>
      obtain ⟨k', w⟩ := p
      simp only [nodupKeys, Bool.and_eq_true, Bool.not_eq_true'] at h
      by_cases h2 : k' = k
      · subst h2
        simpa [aremove] using alookup_eq_none_of_no_key rest k' h.1
      · simp [aremove, alookup, h2, ih h.2]

/-- C8: `reset_stats(device)` for a (non-empty, as the API requires) device
name zeroes that device's cumulative entry, drops its live transition,
leaves `daily_records`, `start_time` and every other key untouched (visible
from the targeted `aset`/`aremove` equations), and hands the freshly reset
state to an immediate `save_data`. -/
theorem reset_stats_per_device (d : String) (now : DateTime) (s : TrackerState)
    (hd : d ≠ "") (hc : nodupKeys s.current_status = true) :
    (reset_stats (some d) now s).1.daily_records = s.daily_records ∧
    (reset_stats (some d) now s).1.start_time = s.start_time ∧
    (reset_stats (some d) now s).1.history =
      (if (alookup s.history d).isSome then aset s.history d HistEntry.zero
       else s.history) ∧
    (alookup (reset_stats (some d) now s).1.history d).getD HistEntry.zero =
      HistEntry.zero ∧
    (reset_stats (some d) now s).1.current_status = aremove s.current_status d ∧
    alookup (reset_stats (some d) now s).1.current_status d = none ∧
    (reset_stats (some d) now s).2 = save_data now (reset_stats (some d) now s).1 := by
  refine ⟨by simp [reset_stats, hd], by simp [reset_stats, hd],
    by simp [reset_stats, hd], ?_, by simp [reset_stats, hd],
    by simpa [reset_stats, hd] using alookup_aremove_self s.current_status d hc,
    by simp [reset_stats]⟩
  cases h : alookup s.history d with
  | none => simp [reset_stats, hd, h]
  | some e => simp [reset_stats, hd, h, alookup_aset_self]

theorem reset_stats_per_device_witness :
    ("PI-65" : String) ≠ "" ∧
    nodupKeys ([("PI-65", Status.running, (⟨2024, 1, 15, 10, 0, 30⟩ : DateTime))] :
      List (String × Status × DateTime)) = true ∧
    ((reset_stats (some "PI-65") ⟨2024, 1, 15, 11, 0, 0⟩
        { start_time := ⟨2024, 1, 15, 0, 0, 0⟩,
          current_status := [("PI-65", .running, ⟨2024, 1, 15, 10, 0, 30⟩)],
          history := [("PI-65", ⟨7, 3, 2, []⟩)],
          daily_records := [("2024-01-15", [("PI-65", .wf ⟨7, 3, 2⟩)])] }).1.daily_records =
      [("2024-01-15", [("PI-65", DVal.wf ⟨7, 3, 2⟩)])] ∧
     (reset_stats (some "PI-65") ⟨2024, 1, 15, 11, 0, 0⟩
        { start_time := ⟨2024, 1, 15, 0, 0, 0⟩,
          current_status := [("PI-65", .running, ⟨2024, 1, 15, 10, 0, 30⟩)],
          history := [("PI-65", ⟨7, 3, 2, []⟩)],
          daily_records := [("2024-01-15", [("PI-65", .wf ⟨7, 3, 2⟩)])] }).1.start_time =
      { start_time := (⟨2024, 1, 15, 0, 0, 0⟩ : DateTime),
        current_status := [("PI-65", Status.running, (⟨2024, 1, 15, 10, 0, 30⟩ : DateTime))],
        history := [("PI-65", (⟨7, 3, 2, []⟩ : HistEntry))],
        daily_records :=
          [("2024-01-15", [("PI-65", DVal.wf ⟨7, 3, 2⟩)])] : TrackerState }.start_time ∧
     (reset_stats (some "PI-65") ⟨2024, 1, 15, 11, 0, 0⟩
        { start_time := ⟨2024, 1, 15, 0, 0, 0⟩,
          current_status := [("PI-65", .running, ⟨2024, 1, 15, 10, 0, 30⟩)],
          history := [("PI-65", ⟨7, 3, 2, []⟩)],
          daily_records := [("2024-01-15", [("PI-65", .wf ⟨7, 3, 2⟩)])] }).1.history =
      (if (alookup [("PI-65", (⟨7, 3, 2, []⟩ : HistEntry))] "PI-65").isSome then
        aset [("PI-65", (⟨7, 3, 2, []⟩ : HistEntry))] "PI-65" HistEntry.zero
       else [("PI-65", (⟨7, 3, 2, []⟩ : HistEntry))]) ∧
     (alookup (reset_stats (some "PI-65") ⟨2024, 1, 15, 11, 0, 0⟩
        { start_time := ⟨2024, 1, 15, 0, 0, 0⟩,
          current_status := [("PI-65", .running, ⟨2024, 1, 15, 10, 0, 30⟩)],
          history := [("PI-65", ⟨7, 3, 2, []⟩)],
          daily_records := [("2024-01-15", [("PI-65", .wf ⟨7, 3, 2⟩)])] }).1.history
        "PI-65").getD HistEntry.zero = HistEntry.zero ∧
     (reset_stats (some "PI-65") ⟨2024, 1, 15, 11, 0, 0⟩
        { start_time := ⟨2024, 1, 15, 0, 0, 0⟩,
          current_status := [("PI-65", .running, ⟨2024, 1, 15, 10, 0, 30⟩)],
          history := [("PI-65", ⟨7, 3, 2, []⟩)],
          daily_records := [("2024-01-15", [("PI-65", .wf ⟨7, 3, 2⟩)])] }).1.current_status =
      aremove [("PI-65", Status.running, (⟨2024, 1, 15, 10, 0, 30⟩ : DateTime))] "PI-65" ∧
     alookup (reset_stats (some "PI-65") ⟨2024, 1, 15, 11, 0, 0⟩
        { start_time := ⟨2024, 1, 15, 0, 0, 0⟩,
          current_status := [("PI-65", .running, ⟨2024, 1, 15, 10, 0, 30⟩)],
          history := [("PI-65", ⟨7, 3, 2, []⟩)],
          daily_records := [("2024-01-15", [("PI-65", .wf ⟨7, 3, 2⟩)])] }).1.current_status
        "PI-65" = none ∧
     (reset_stats (some "PI-65") ⟨2024, 1, 15, 11, 0, 0⟩
        { start_time := ⟨2024, 1, 15, 0, 0, 0⟩,
          current_status := [("PI-65", .running, ⟨2024, 1, 15, 10, 0, 30⟩)],
          history := [("PI-65", ⟨7, 3, 2, []⟩)],
          daily_records := [("2024-01-15", [("PI-65", .wf ⟨7, 3, 2⟩)])] }).2 =
      save_data ⟨2024, 1, 15, 11, 0, 0⟩
        (reset_stats (some "PI-65") ⟨2024, 1, 15, 11, 0, 0⟩
          { start_time := ⟨2024, 1, 15, 0, 0, 0⟩,
            current_status := [("PI-65", .running, ⟨2024, 1, 15, 10, 0, 30⟩)],
            history := [("PI-65", ⟨7, 3, 2, []⟩)],
            daily_records := [("2024-01-15", [("PI-65", .wf ⟨7, 3, 2⟩)])] }).1) := by
  exact ⟨by decide, by decide,
    reset_stats_per_device "PI-65" ⟨2024, 1, 15, 11, 0, 0⟩
      { start_time := ⟨2024, 1, 15, 0, 0, 0⟩,
        current_status := [("PI-65", .running, ⟨2024, 1, 15, 10, 0, 30⟩)],
        history := [("PI-65", ⟨7, 3, 2, []⟩)],
        daily_records := [("2024-01-15", [("PI-65", .wf ⟨7, 3, 2⟩)])] }
      (by decide) (by decide)⟩

/-- `update_status` on a device with an open transition, without assuming
monotone time: the clamped duration is flushed. -/
theorem update_status_ok (s : TrackerState) (dev : String) (old ns : Status)
    (since t2 : DateTime) (r : SRec)
    (hcur : alookup s.current_status dev = some (old, since))
    (hwf : (alookup ((alookup s.daily_records (dateKey t2)).getD []) dev).getD
             (.wf SRec.zero) = .wf r) :
    update_status dev ns t2 s = .ok { s with
      history := aset s.history dev
        (((alookup s.history dev).getD HistEntry.zero).add old
          (if toSec t2 - toSec since < 0 then 0 else toSec t2 - toSec since))
      daily_records := aset s.daily_records (dateKey t2)
        (aset ((alookup s.daily_records (dateKey t2)).getD []) dev
          (.wf (r.add old
            (if toSec t2 - toSec since < 0 then 0 else toSec t2 - toSec since))))
      current_status := aset s.current_status dev (ns, t2) } := by
  simp only [update_status, dailyAdd, dvalAdd, hcur, hwf]

def recOps (dev : String) (l : List (Status × DateTime)) : List Op :=
  l.map (fun p => .record dev p.1 p.2)

theorem dailyAllWF_lookup (t : List (String × List (String × DVal)))
    (h : dailyAllWF t = true) (date dev : String) :
    ∃ r, (alookup ((alookup t date).getD []) dev).getD (.wf SRec.zero) = .wf r := by
  cases houter : alookup t date with
  | none => exact ⟨SRec.zero, by simp [alookup]⟩
  | some inner =>
      cases hin : alookup inner dev with
      | none => exact ⟨SRec.zero, by simp [hin]⟩
      | some v =>
          have hmem := alookup_mem _ _ _ houter
          have hmem2 := alookup_mem _ _ _ hin
          simp only [dailyAllWF, List.all_eq_true] at h
          have := h _ hmem _ hmem2
          cases v with
          | wf r => exact ⟨r, by simp [hin]⟩
          | raw j => simp at this

theorem dailyAllWF_aset (t : List (String × List (String × DVal)))
    (date dev : String) (v : SRec) (h : dailyAllWF t = true) :
    dailyAllWF (aset t date
      (aset ((alookup t date).getD []) dev (.wf v))) = true := by
  simp only [dailyAllWF] at h ⊢
  apply all_aset _ _ _ _ h
  cases houter : alookup t date with
  | none => simp [aset]
  | some inner =>
      have hmem := alookup_mem _ _ _ houter
      simp only [List.all_eq_true] at h
      apply all_aset
      · simp only [List.all_eq_true]
        exact fun x hx => h _ hmem x hx
      · rfl

theorem conservation_aux (l : List (Status × DateTime)) :
    ∀ (s : TrackerState) (dev : String) (stc : Status) (tc : DateTime),
    alookup s.current_status dev = some (stc, tc) →
    dailyAllWF s.daily_records = true →
    List.Chain (fun a b : Status × DateTime => toSec a.2 < toSec b.2) (stc, tc) l →
    isOk (runOps (recOps dev l) s) = true ∧
    histTotal (runState (runOps (recOps dev l) s)) dev =
      histTotal s dev + (toSec (l.getLastD (stc, tc)).2 - toSec tc) ∧
    alookup (runState (runOps (recOps dev l) s)).current_status dev =
      some (l.getLastD (stc, tc)) ∧
    dailyAllWF (runState (runOps (recOps dev l) s)).daily_records = true := by
  induction l with
  | nil =>
      intro s dev stc tc hcur hwf _
      refine ⟨rfl, by simp [runOps, recOps, runState], ?_, ?_⟩
      · simpa [runOps, recOps, runState] using hcur
      · simpa [runOps, recOps, runState] using hwf
  | cons hd rest ih =>
      intro s dev stc tc hcur hwf hchain
      obtain ⟨st1, t1⟩ := hd
      rw [List.chain_cons] at hchain
      obtain ⟨hlt, hchain'⟩ := hchain
      obtain ⟨r, hr⟩ := dailyAllWF_lookup _ hwf (dateKey t1) dev
      have hstep := update_status_step s dev stc st1 tc t1 r hcur hr (le_of_lt hlt)
      have hrun : runOps (recOps dev ((st1, t1) :: rest)) s =
          runOps (recOps dev rest) (runState (update_status dev st1 t1 s)) := by
        simp only [recOps, List.map_cons, runOps, runOp, hstep, runState]
      set s1 := runState (update_status dev st1 t1 s) with hs1
      have hcur1 : alookup s1.current_status dev = some (st1, t1) := by
        rw [hs1, hstep]
        simpa [runState] using alookup_aset_self s.current_status dev (st1, t1)
      have hwf1 : dailyAllWF s1.daily_records = true := by
        rw [hs1, hstep]
        simpa [runState] using dailyAllWF_aset s.daily_records (dateKey t1) dev _ hwf
      have htot1 : histTotal s1 dev = histTotal s dev + (toSec t1 - toSec tc) := by
        rw [hs1, hstep]
        simp only [runState, histTotal]
        rw [alookup_aset_self]
        simpa using histTotal_add ((alookup s.history dev).getD HistEntry.zero) stc
          (toSec t1 - toSec tc)
      obtain ⟨hok, htot, hcur2, hwf2⟩ := ih s1 dev st1 t1 hcur1 hwf1 hchain'
      rw [hrun, List.getLastD_cons]
      refine ⟨hok, ?_, hcur2, hwf2⟩
      rw [htot, htot1]
      ring

/-- C1: from a fresh ledger, after any non-empty strictly-increasing sequence
of `record` calls for one device, no call raised, the open transition sits
at the last call's timestamp, and the sum of the three cumulative counters
plus the elapsed time of the open transition (`now` minus its `since`)
equals the wall-clock time from the first call to `now`. -/
theorem conservation (T : DateTime) (dev : String) (st0 : Status) (t0 : DateTime)
    (rest : List (Status × DateTime)) (now : DateTime)
    (hchain : List.Chain (fun a b : Status × DateTime => toSec a.2 < toSec b.2)
      (st0, t0) rest) :
    isOk (runOps (recOps dev ((st0, t0) :: rest)) (initTracker T)) = true ∧
    alookup (runState (runOps (recOps dev ((st0, t0) :: rest))
        (initTracker T))).current_status dev = some (rest.getLastD (st0, t0)) ∧
    histTotal (runState (runOps (recOps dev ((st0, t0) :: rest)) (initTracker T))) dev
      + (toSec now - toSec (rest.getLastD (st0, t0)).2) = toSec now - toSec t0 := by
  have hfirst : update_status dev st0 t0 (initTracker T) =
      .ok { initTracker T with current_status := [(dev, (st0, t0))] } := by
    rfl
  have hrun : runOps (recOps dev ((st0, t0) :: rest)) (initTracker T) =
      runOps (recOps dev rest)
        { initTracker T with current_status := [(dev, (st0, t0))] } := by
    simp only [recOps, List.map_cons, runOps, runOp, hfirst]
  have hcur : alookup ([(dev, (st0, t0))] :
      List (String × Status × DateTime)) dev = some (st0, t0) := by
    simp [alookup]
  obtain ⟨hok, htot, hcur2, _⟩ := conservation_aux rest
    { initTracker T with current_status := [(dev, (st0, t0))] } dev st0 t0 hcur
    (by rfl) hchain
  rw [hrun]
  refine ⟨hok, hcur2, ?_⟩
  rw [htot]
  simp [initTracker, histTotal, alookup, HistEntry.zero]

theorem conservation_witness :
    List.Chain (fun a b : Status × DateTime => toSec a.2 < toSec b.2)
      (Status.offline, (⟨2024, 1, 15, 10, 0, 0⟩ : DateTime))
      [(Status.online, ⟨2024, 1, 15, 10, 0, 10⟩),
       (Status.running, ⟨2024, 1, 15, 10, 0, 25⟩)] ∧
    (isOk (runOps (recOps "PI-65"
        [(Status.offline, ⟨2024, 1, 15, 10, 0, 0⟩),
         (Status.online, ⟨2024, 1, 15, 10, 0, 10⟩),
         (Status.running, ⟨2024, 1, 15, 10, 0, 25⟩)])
        (initTracker ⟨2024, 1, 15, 10, 0, 0⟩)) = true ∧
     alookup (runState (runOps (recOps "PI-65"
        [(Status.offline, ⟨2024, 1, 15, 10, 0, 0⟩),
         (Status.online, ⟨2024, 1, 15, 10, 0, 10⟩),
         (Status.running, ⟨2024, 1, 15, 10, 0, 25⟩)])
        (initTracker ⟨2024, 1, 15, 10, 0, 0⟩))).current_status "PI-65" =
       some ([(Status.online, (⟨2024, 1, 15, 10, 0, 10⟩ : DateTime)),
              (Status.running, ⟨2024, 1, 15, 10, 0, 25⟩)].getLastD
         (Status.offline, ⟨2024, 1, 15, 10, 0, 0⟩)) ∧
     histTotal (runState (runOps (recOps "PI-65"
        [(Status.offline, ⟨2024, 1, 15, 10, 0, 0⟩),
         (Status.online, ⟨2024, 1, 15, 10, 0, 10⟩),
         (Status.running, ⟨2024, 1, 15, 10, 0, 25⟩)])
        (initTracker ⟨2024, 1, 15, 10, 0, 0⟩))) "PI-65"
       + (toSec ⟨2024, 1, 15, 10, 0, 30⟩
          - toSec ([(Status.online, (⟨2024, 1, 15, 10, 0, 10⟩ : DateTime)),
                    (Status.running, ⟨2024, 1, 15, 10, 0, 25⟩)].getLastD
              (Status.offline, ⟨2024, 1, 15, 10, 0, 0⟩)).2)
       = toSec ⟨2024, 1, 15, 10, 0, 30⟩ - toSec ⟨2024, 1, 15, 10, 0, 0⟩) := by
  refine ⟨?_, conservation ⟨2024, 1, 15, 10, 0, 0⟩ "PI-65" .offline
    ⟨2024, 1, 15, 10, 0, 0⟩
    [(.online, ⟨2024, 1, 15, 10, 0, 10⟩), (.running, ⟨2024, 1, 15, 10, 0, 25⟩)]
    ⟨2024, 1, 15, 10, 0, 30⟩ ?h⟩
  case h =>
    exact List.Chain.cons (by decide) (List.Chain.cons (by decide) List.Chain.nil)
  exact List.Chain.cons (by decide) (List.Chain.cons (by decide) List.Chain.nil)

theorem entryNonneg_zero : entryNonneg HistEntry.zero = true := by decide

theorem entryNonneg_add (e : HistEntry) (st : Status) (d : Int)
    (h : entryNonneg e = true) (hd : 0 ≤ d) : entryNonneg (e.add st d) = true := by
  simp only [entryNonneg, Bool.and_eq_true, decide_eq_true_eq] at h ⊢
  cases st <;> simp only [HistEntry.add] <;>
    exact ⟨⟨⟨by omega, by omega⟩, by omega⟩, h.2⟩

theorem entry_lookup_nonneg (l : List (String × HistEntry)) (dev : String)
    (h : l.all (fun p => entryNonneg p.2) = true) :
    entryNonneg ((alookup l dev).getD HistEntry.zero) = true := by
  cases hc : alookup l dev with
  | none => exact entryNonneg_zero
  | some e =>
      simp only [List.all_eq_true] at h
      simpa using h _ (alookup_mem _ _ _ hc)

theorem stateNonneg_dailyAllWF (s : TrackerState) (h : stateNonneg s = true) :
    dailyAllWF s.daily_records = true := by
  simp only [stateNonneg, Bool.and_eq_true, List.all_eq_true] at h
  simp only [dailyAllWF, List.all_eq_true]
  intro p hp q hq
  have := h.2 p hp q hq
  cases hv : q.2 with
  | wf r => simp
  | raw j => rw [hv] at this; simp [dvalNonnegWF] at this

theorem stateNonneg_daily_cell (s : TrackerState) (h : stateNonneg s = true)
    (date dev : String) :
    ∃ r, (alookup ((alookup s.daily_records date).getD []) dev).getD
        (.wf SRec.zero) = .wf r ∧ 0 ≤ r.running ∧ 0 ≤ r.online ∧ 0 ≤ r.offline := by
  simp only [stateNonneg, Bool.and_eq_true, List.all_eq_true] at h
  cases houter : alookup s.daily_records date with
  | none => exact ⟨SRec.zero, by simp [alookup], by simp [SRec.zero], by simp [SRec.zero],
      by simp [SRec.zero]⟩
  | some inner =>
      cases hin : alookup inner dev with
      | none => exact ⟨SRec.zero, by simp [hin], by simp [SRec.zero], by simp [SRec.zero],
          by simp [SRec.zero]⟩
      | some v =>
          have := h.2 _ (alookup_mem _ _ _ houter) _ (alookup_mem _ _ _ hin)
          cases v with
          | wf r =>
              simp only [dvalNonnegWF, Bool.and_eq_true, decide_eq_true_eq] at this
              exact ⟨r, by simp [hin], this.1.1, this.1.2, this.2⟩
          | raw j => simp [dvalNonnegWF] at this

theorem update_status_nonneg (dev : String) (ns : Status) (t2 : DateTime)
    (s : TrackerState) (h : stateNonneg s = true) :
    isOk (update_status dev ns t2 s) = true ∧
    stateNonneg (runState (update_status dev ns t2 s)) = true := by
  cases hcur : alookup s.current_status dev with
  | none =>
      constructor
      · simp [update_status, hcur, isOk]
      · simpa [update_status, hcur, runState, stateNonneg] using h
  | some p =>
      obtain ⟨old, since⟩ := p
      obtain ⟨r, hr, hrn⟩ := stateNonneg_daily_cell s h (dateKey t2) dev
      have hok := update_status_ok s dev old ns since t2 r hcur hr
      rw [hok]
      have hΔ : 0 ≤ (if toSec t2 - toSec since < 0 then 0
          else toSec t2 - toSec since) := by split <;> omega
      simp only [stateNonneg, Bool.and_eq_true] at h
      obtain ⟨hh1, hh2⟩ := h
      refine ⟨rfl, ?_⟩
      simp only [runState, stateNonneg, Bool.and_eq_true]
      have hval : dvalNonnegWF (.wf (r.add old
          (if toSec t2 - toSec since < 0 then 0 else toSec t2 - toSec since))) = true := by
        simp only [dvalNonnegWF, Bool.and_eq_true, decide_eq_true_eq]
        obtain ⟨h1, h2, h3⟩ := hrn
        refine ⟨⟨?_, ?_⟩, ?_⟩ <;> cases old <;> simp [SRec.add] <;> omega
      constructor
      · exact all_aset _ _ _ _ hh1
          (entryNonneg_add _ _ _ (entry_lookup_nonneg s.history dev hh1) hΔ)
      · apply all_aset _ _ _ _ hh2
        cases houter : alookup s.daily_records (dateKey t2) with
        | none =>
            simp only [houter, Option.getD_none, aset]
            simpa using hval
        | some inner =>
            have hinner : inner.all (fun q => dvalNonnegWF q.2) = true := by
              have := List.all_eq_true.mp hh2 _ (alookup_mem _ _ _ houter)
              simpa using this
            simp only [houter, Option.getD_some]
            exact all_aset _ _ _ _ hinner hval

theorem stats_step_nonneg (dev : String) (t : DateTime) (s : TrackerState)
    (h : stateNonneg s = true) :
    stateNonneg ((get_device_stats dev t s).2) = true := by
  simp only [stateNonneg, Bool.and_eq_true] at h
  simp only [get_device_stats, stateNonneg, Bool.and_eq_true]
  refine ⟨?_, h.2⟩
  split
  · exact h.1
  · rw [List.all_append]
    simp [h.1, entryNonneg_zero]

theorem runOps_nonneg (ops : List Op) :
    ∀ s : TrackerState, stateNonneg s = true →
    isOk (runOps ops s) = true ∧ stateNonneg (runState (runOps ops s)) = true := by
  induction ops with
  | nil => exact fun s h => ⟨rfl, h⟩
  | cons op rest ih =>
      intro s h
      cases op with
      | record dev st t =>
          obtain ⟨hok, hinv⟩ := update_status_nonneg dev st t s h
          cases hu : update_status dev st t s with
          | error e => rw [hu] at hok; simp [isOk] at hok
          | ok s' =>
              rw [hu] at hinv
              simp only [runOps, runOp, hu]
              exact ih s' hinv
      | stats dev t =>
          simp only [runOps, runOp]
          exact ih _ (stats_step_nonneg dev t s h)

theorem stats_fields_nonneg (dev : String) (now : DateTime) (s : TrackerState)
    (h : stateNonneg s = true) :
    0 ≤ (get_device_stats dev now s).1.running_seconds ∧
    0 ≤ (get_device_stats dev now s).1.online_seconds ∧
    0 ≤ (get_device_stats dev now s).1.offline_seconds := by
  simp only [stateNonneg, Bool.and_eq_true] at h
  have he := entry_lookup_nonneg s.history dev h.1
  simp only [entryNonneg, Bool.and_eq_true, decide_eq_true_eq] at he
  cases hc : alookup s.current_status dev with
  | none =>
      simp only [get_device_stats, hc]
      refine ⟨?_, ?_, ?_⟩ <;> simp <;> omega
  | some p =>
      obtain ⟨st, since⟩ := p
      simp only [get_device_stats, hc]
      have hcd : 0 ≤ (if toSec now - toSec since < 0 then 0
          else toSec now - toSec since) := by split <;> omega
      refine ⟨?_, ?_, ?_⟩ <;> dsimp only <;> split <;> omega

/-- C4: from a fresh ledger, any sequence of `record` and `stats` calls with
arbitrary (including backwards-jumping) timestamps raises no error — a
regressed clock is clamped to a zero duration — and afterwards every
cumulative counter and every daily bucket is non-negative, as are the
reported seconds fields of any further `stats` query. -/
theorem no_negative_durations (T : DateTime) (ops : List Op) :
    isOk (runOps ops (initTracker T)) = true ∧
    stateNonneg (runState (runOps ops (initTracker T))) = true ∧
    ∀ dev now,
      0 ≤ (get_device_stats dev now
            (runState (runOps ops (initTracker T)))).1.running_seconds ∧
      0 ≤ (get_device_stats dev now
            (runState (runOps ops (initTracker T)))).1.online_seconds ∧
      0 ≤ (get_device_stats dev now
            (runState (runOps ops (initTracker T)))).1.offline_seconds := by
  obtain ⟨hok, hinv⟩ := runOps_nonneg ops (initTracker T) (by rfl)
  exact ⟨hok, hinv, fun dev now => stats_fields_nonneg dev now _ hinv⟩

theorem srec_get_zero (st : Status) : SRec.zero.get st = 0 := by
  cases st <;> rfl

theorem mlookup_aset_add (acc : List (String × SRec)) (dv : String) (r : SRec)
    (dev : String) (st : Status) :
    mlookup (aset acc dv ⟨((alookup acc dv).getD SRec.zero).running + r.running,
      ((alookup acc dv).getD SRec.zero).online + r.online,
      ((alookup acc dv).getD SRec.zero).offline + r.offline⟩) dev st =
    mlookup acc dev st + (if dv = dev then r.get st else 0) := by
  by_cases hdev : dv = dev
  · subst hdev
    simp only [mlookup, alookup_aset_self, Option.getD_some, if_pos rfl]
    cases st <;> simp [SRec.get]
  · simp [mlookup, alookup_aset_ne _ _ _ _ hdev, hdev]

theorem monthlyAddDevices_ok (devs : List (String × DVal)) :
    ∀ acc : List (String × SRec),
    (∀ q ∈ devs, ∃ r, q.2 = DVal.wf r) →
    ∃ acc', monthlyAddDevices acc devs = some acc' ∧
      ∀ dev st, mlookup acc' dev st = mlookup acc dev st +
        ((devs.filter (fun q => q.1 == dev)).map (fun q => dvalGet q.2 st)).sum := by
  induction devs with
  | nil =>
      intro acc _
      exact ⟨acc, rfl, by simp⟩
  | cons q rest ih =>
      intro acc hq
      obtain ⟨dv, v⟩ := q
      obtain ⟨r, hr⟩ := hq _ (List.mem_cons_self _ _)
      simp only at hr
      subst hr
      obtain ⟨acc', hacc', hsum⟩ :=
        ih (aset acc dv ⟨((alookup acc dv).getD SRec.zero).running + r.running,
             ((alookup acc dv).getD SRec.zero).online + r.online,
             ((alookup acc dv).getD SRec.zero).offline + r.offline⟩)
           (fun x hx => hq _ (List.mem_cons_of_mem _ hx))
      refine ⟨acc', ?_, ?_⟩
      · simpa only [monthlyAddDevices, monthlyAddDVal] using hacc'
      · intro dev st
        rw [hsum dev st, mlookup_aset_add]
        by_cases hdev : dv = dev
        · have hfilter : ((dv, DVal.wf r) :: rest).filter (fun q => q.1 == dev) =
              (dv, DVal.wf r) :: rest.filter (fun q => q.1 == dev) := by
            simp [List.filter, hdev]
          rw [hfilter]
          simp only [List.map_cons, List.sum_cons, dvalGet, if_pos hdev]
          ring
        · have hbeq : (dv == dev) = false := by simpa using hdev
          have hfilter : ((dv, DVal.wf r) :: rest).filter (fun q => q.1 == dev) =
              rest.filter (fun q => q.1 == dev) := by
            simp [List.filter, hbeq]
          rw [hfilter]
          simp [if_neg hdev]

theorem monthlyFold_ok (year month : Nat)
    (l : List (String × List (String × DVal))) :
    ∀ acc, (∀ p ∈ l, ∀ q ∈ p.2, ∃ r, q.2 = DVal.wf r) →
    ∃ res, monthlyFold year month l acc = some res ∧
      ∀ dev st, mlookup res dev st =
        mlookup acc dev st + monthSumSpec l year month dev st := by
  induction l with
  | nil =>
      intro acc _
      exact ⟨acc, rfl, by simp [monthSumSpec]⟩
  | cons p rest ih =>
      intro acc hp
      obtain ⟨dateStr, devs⟩ := p
      cases hparse : parseDateKey dateStr with
      | none =>
          obtain ⟨res, hres, hsum⟩ := ih acc (fun x hx => hp x (List.mem_cons_of_mem _ hx))
          refine ⟨res, by simpa only [monthlyFold, hparse] using hres, ?_⟩
          intro dev st
          rw [hsum dev st]
          simp [monthSumSpec, List.filter, hparse]
      | some d =>
          by_cases hin : inMonthRange year month d = true
          · obtain ⟨acc1, hacc1, hsum1⟩ :=
              monthlyAddDevices_ok devs acc (fun q hq => hp _ (List.mem_cons_self _ _) q hq)
            obtain ⟨res, hres, hsum⟩ :=
              ih acc1 (fun x hx => hp x (List.mem_cons_of_mem _ hx))
            refine ⟨res, ?_, ?_⟩
            · simpa only [monthlyFold, hparse, hin, if_true, hacc1] using hres
            · intro dev st
              rw [hsum dev st, hsum1 dev st]
              have hfilter : (((dateStr, devs) ::
                  rest).filter (fun p => match parseDateKey p.1 with
                    | some d => inMonthRange year month d
                    | none => false)) = (dateStr, devs) ::
                  rest.filter (fun p => match parseDateKey p.1 with
                    | some d => inMonthRange year month d
                    | none => false) := by
                simp [List.filter, hparse, hin]
              simp only [monthSumSpec] at *
              rw [hfilter]
              simp only [List.map_cons, List.sum_cons]
              ring
          · obtain ⟨res, hres, hsum⟩ := ih acc (fun x hx => hp x (List.mem_cons_of_mem _ hx))
            refine ⟨res, ?_, ?_⟩
            · have hin2 : inMonthRange year month d = false := by
                simpa using hin
              simpa only [monthlyFold, hparse, hin2, Bool.false_eq_true, if_false] using hres
            · intro dev st
              rw [hsum dev st]
              have hin2 : inMonthRange year month d = false := by
                simpa using hin
              simp [monthSumSpec, List.filter, hparse, hin2]

/-- C10: `get_monthly_stats` raises nothing on (well-formed) daily tables and
returns, for every device and state, exactly the sum of the seconds stored
under daily-record keys that `strptime('%Y-%m-%d')` parses to a date inside
the requested calendar month; keys that fail to parse are silently skipped
by the `except ValueError: continue` handler. -/
theorem monthly_stats_skips_malformed (year month : Nat) (dev : String)
    (st : Status) (s : TrackerState)
    (hy : 1 ≤ year) (hy2 : year ≤ 9999) (hm : 1 ≤ month) (hm2 : month ≤ 12)
    (hedge : ¬(month = 12 ∧ year = 9999))
    (hwf : dailyAllWF s.daily_records = true) :
    (get_monthly_stats year month s).isSome = true ∧
    mlookup ((get_monthly_stats year month s).getD []) dev st =
      monthSumSpec s.daily_records year month dev st := by
  have hall : ∀ p ∈ s.daily_records, ∀ q ∈ p.2, ∃ r, q.2 = DVal.wf r := by
    simp only [dailyAllWF, List.all_eq_true] at hwf
    intro p hp q hq
    have := hwf p hp q hq
    cases hv : q.2 with
    | wf r => exact ⟨r, rfl⟩
    | raw j => rw [hv] at this; simp at this
  obtain ⟨res, hres, hsum⟩ := monthlyFold_ok year month s.daily_records [] hall
  have hcall : get_monthly_stats year month s = some res := by
    simp only [get_monthly_stats]
    rw [if_pos ⟨hy, hy2, hm, hm2⟩, if_neg hedge]
    exact hres
  rw [hcall]
  refine ⟨rfl, ?_⟩
  have := hsum dev st
  simpa [mlookup, alookup, srec_get_zero] using this

theorem monthly_stats_skips_malformed_witness :
    (1 ≤ 2024 ∧ 2024 ≤ 9999 ∧ 1 ≤ 1 ∧ 1 ≤ 12 ∧ ¬((1 : Nat) = 12 ∧ (2024 : Nat) = 9999) ∧
     dailyAllWF [("2024-01-15", [("PI-65", DVal.wf ⟨5, 3, 2⟩)]),
                 ("garbage", [("PI-65", DVal.wf ⟨100, 100, 100⟩)]),
                 ("2024-02-01", [("PI-65", DVal.wf ⟨50, 0, 0⟩)]),
                 ("2024-01-20", [("PI-65", DVal.wf ⟨7, 0, 1⟩)])] = true) ∧
    ((get_monthly_stats 2024 1
        { start_time := ⟨2024, 3, 1, 0, 0, 0⟩, current_status := [], history := [],
          daily_records := [("2024-01-15", [("PI-65", DVal.wf ⟨5, 3, 2⟩)]),
                            ("garbage", [("PI-65", DVal.wf ⟨100, 100, 100⟩)]),
                            ("2024-02-01", [("PI-65", DVal.wf ⟨50, 0, 0⟩)]),
                            ("2024-01-20", [("PI-65", DVal.wf ⟨7, 0, 1⟩)])] }).isSome = true ∧
     mlookup ((get_monthly_stats 2024 1
        { start_time := ⟨2024, 3, 1, 0, 0, 0⟩, current_status := [], history := [],
          daily_records := [("2024-01-15", [("PI-65", DVal.wf ⟨5, 3, 2⟩)]),
                            ("garbage", [("PI-65", DVal.wf ⟨100, 100, 100⟩)]),
                            ("2024-02-01", [("PI-65", DVal.wf ⟨50, 0, 0⟩)]),
                            ("2024-01-20", [("PI-65", DVal.wf ⟨7, 0, 1⟩)])] }).getD [])
       "PI-65" Status.running =
       monthSumSpec [("2024-01-15", [("PI-65", DVal.wf ⟨5, 3, 2⟩)]),
                     ("garbage", [("PI-65", DVal.wf ⟨100, 100, 100⟩)]),
                     ("2024-02-01", [("PI-65", DVal.wf ⟨50, 0, 0⟩)]),
                     ("2024-01-20", [("PI-65", DVal.wf ⟨7, 0, 1⟩)])] 2024 1
         "PI-65" Status.running) := by
  refine ⟨⟨by decide, by decide, by decide, by decide, by decide, by rfl⟩, ?_⟩
  exact monthly_stats_skips_malformed 2024 1 "PI-65" Status.running
    { start_time := ⟨2024, 3, 1, 0, 0, 0⟩, current_status := [], history := [],
      daily_records := [("2024-01-15", [("PI-65", DVal.wf ⟨5, 3, 2⟩)]),
                        ("garbage", [("PI-65", DVal.wf ⟨100, 100, 100⟩)]),
                        ("2024-02-01", [("PI-65", DVal.wf ⟨50, 0, 0⟩)]),
                        ("2024-01-20", [("PI-65", DVal.wf ⟨7, 0, 1⟩)])] }
    (by decide) (by decide) (by decide) (by decide) (by decide) (by rfl)

theorem digit_isDigit (n : Nat) (h : n < 10) : (Nat.digitChar n).isDigit = true := by
  interval_cases n <;> decide

theorem digit_toNat (n : Nat) (h : n < 10) : (Nat.digitChar n).toNat - 48 = n := by
  interval_cases n <;> decide

theorem daysInMonth_le (y m : Nat) : daysInMonth y m ≤ 31 := by
  unfold daysInMonth
  split <;> first | omega | (split <;> omega)

theorem fromIso_isoFormat (d : DateTime) (h : isValidDT d = true) :
    fromIso (isoFormat d) = some d := by
  obtain ⟨y, mo, da, hh, mi, ss⟩ := d
  have hb := h
  simp only [isValidDT, decide_eq_true_eq] at hb
  obtain ⟨h1, h2, h3, h4, h5, h6, h7, h8, h9⟩ := hb
  have hda : da ≤ 31 := le_trans h6 (daysInMonth_le y mo)
  have m10 : ∀ n : Nat, n % 10 < 10 := fun n => Nat.mod_lt _ (by norm_num)
  show fromIsoChars (isoChars ⟨y, mo, da, hh, mi, ss⟩) = some ⟨y, mo, da, hh, mi, ss⟩
  simp only [isoChars, pad2, pad4, List.cons_append, List.nil_append]
  rw [fromIsoChars]
  rw [if_pos ⟨rfl, rfl, rfl, rfl, rfl,
    digit_isDigit _ (m10 _), digit_isDigit _ (m10 _), digit_isDigit _ (m10 _),
    digit_isDigit _ (m10 _), digit_isDigit _ (m10 _), digit_isDigit _ (m10 _),
    digit_isDigit _ (m10 _), digit_isDigit _ (m10 _), digit_isDigit _ (m10 _),
    digit_isDigit _ (m10 _), digit_isDigit _ (m10 _), digit_isDigit _ (m10 _),
    digit_isDigit _ (m10 _), digit_isDigit _ (m10 _)⟩]
  simp only [digit_toNat _ (m10 _)]
  have ey : 1000 * (y / 1000 % 10) + 100 * (y / 100 % 10) + 10 * (y / 10 % 10) + y % 10
      = y := by omega
  have emo : 10 * (mo / 10 % 10) + mo % 10 = mo := by omega
  have eda : 10 * (da / 10 % 10) + da % 10 = da := by omega
  have ehh : 10 * (hh / 10 % 10) + hh % 10 = hh := by omega
  have emi : 10 * (mi / 10 % 10) + mi % 10 = mi := by omega
  have ess : 10 * (ss / 10 % 10) + ss % 10 = ss := by omega
  rw [ey, emo, eda, ehh, emi, ess, if_pos h]

theorem alookup_append_none {α : Type} (l1 l2 : List (String × α)) (k : String)
    (h1 : alookup l1 k = none) (h2 : alookup l2 k = none) :
    alookup (l1 ++ l2) k = none := by
  rw [alookup_append_of_none _ _ _ h1, h2]

theorem numLead_nums (l : List (String × Int)) :
    numLead (l.map (fun p => (p.1, JTree.num p.2))) = (l, true) := by
  induction l with
  | nil => rfl
  | cons p rest ih =>
      obtain ⟨k, v⟩ := p
      simp [numLead, ih]

theorem key_not_in_of_any_false {α : Type} (l : List (String × α)) (k : String)
    (h : (l.any fun p => p.1 == k) = false) (x : String × α) (hx : x ∈ l) :
    ¬(k = x.1) := by
  intro hc
  have hb : (x.1 == k) = true := beq_iff_eq.mpr hc.symm
  have h2 : (l.any fun p => p.1 == k) = true := List.any_eq_true.mpr ⟨x, hx, hb⟩
  rw [h2] at h
  exact absurd h (by simp)

theorem applyStatuses_extras (l : List (String × Int)) :
    ∀ e : HistEntry,
    (∀ p ∈ l, ¬(p.1 = "running") ∧ ¬(p.1 = "online") ∧ ¬(p.1 = "offline") ∧
      alookup e.extra p.1 = none) →
    nodupKeys l = true →
    applyStatuses e l = { e with extra := e.extra ++ l } := by
  induction l with
  | nil => intro e _ _; simp [applyStatuses]
  | cons p rest ih =>
      intro e hl hnd
      obtain ⟨k, v⟩ := p
      obtain ⟨hk1, hk2, hk3, hk4⟩ := hl _ (List.mem_cons_self _ _)
      simp only [nodupKeys, Bool.and_eq_true, Bool.not_eq_true'] at hnd
      have hset : e.setByName k v = { e with extra := e.extra ++ [(k, v)] } := by
        simp only [HistEntry.setByName, if_neg hk1, if_neg hk2, if_neg hk3]
        rw [aset_of_none _ _ _ hk4]
      rw [applyStatuses, hset, ih _ ?_ hnd.2]
      · simp
      · intro p hp
        obtain ⟨g1, g2, g3, g4⟩ := hl _ (List.mem_cons_of_mem _ hp)
        refine ⟨g1, g2, g3, ?_⟩
        apply alookup_append_none _ _ _ g4
        simp [alookup, key_not_in_of_any_false rest k hnd.1 p hp]

theorem applyStatuses_encode (e : HistEntry) (h : extraWF e.extra = true) :
    applyStatuses HistEntry.zero
      (("running", e.running) :: ("online", e.online) :: ("offline", e.offline)
        :: e.extra) = e := by
  simp only [extraWF, Bool.and_eq_true, List.all_eq_true] at h
  have h3 : applyStatuses HistEntry.zero
      (("running", e.running) :: ("online", e.online) :: ("offline", e.offline)
        :: e.extra) =
      applyStatuses (⟨e.running, e.online, e.offline, []⟩ : HistEntry) e.extra := by
    rfl
  rw [h3, applyStatuses_extras e.extra _ ?_ h.1]
  · simp
  · intro p hp
    have := h.2 p hp
    simp only [Bool.and_eq_true, Bool.not_eq_true', beq_eq_false_iff_ne] at this
    exact ⟨this.1.1, this.1.2, this.2, rfl⟩

theorem encodeHistEntry_fields (e : HistEntry) :
    encodeHistEntry e = .obj ((("running", e.running) :: ("online", e.online) ::
      ("offline", e.offline) :: e.extra).map (fun p => (p.1, JTree.num p.2))) := by
  simp [encodeHistEntry]

theorem loadHist_encode (H : List (String × HistEntry)) :
    ∀ h0 : List (String × HistEntry),
    (∀ p ∈ H, alookup h0 p.1 = none) →
    nodupKeys H = true →
    (∀ p ∈ H, extraWF p.2.extra = true) →
    loadHistDevices (H.map (fun p => (p.1, encodeHistEntry p.2))) h0 =
      (h0 ++ H, true) := by
  induction H with
  | nil => intro h0 _ _ _; simp [loadHistDevices]
  | cons p rest ih =>
      intro h0 hfresh hnd hextra
      obtain ⟨dev, e⟩ := p
      simp only [nodupKeys, Bool.and_eq_true, Bool.not_eq_true'] at hnd
      rw [List.map_cons, encodeHistEntry_fields, loadHistDevices, numLead_nums]
      simp only [List.isEmpty_cons, Bool.false_eq_true, if_false]
      have hdev : alookup h0 dev = none := hfresh _ (List.mem_cons_self _ _)
      rw [hdev]
      simp only [Option.getD_none]
      rw [applyStatuses_encode e (hextra _ (List.mem_cons_self _ _)),
        aset_of_none _ _ _ hdev, if_pos trivial]
      rw [ih (h0 ++ [(dev, e)]) ?_ hnd.2 (fun q hq => hextra _ (List.mem_cons_of_mem _ hq))]
      · simp
      · intro q hq
        apply alookup_append_none _ _ _ (hfresh _ (List.mem_cons_of_mem _ hq))
        simp [alookup, key_not_in_of_any_false rest dev hnd.1 q hq]

theorem decode_encode (v : DVal) (h : dvalWF v = true) :
    decodeDVal (encodeDVal v) = v := by
  cases v with
  | wf r =>
      show decodeDVal (.obj [("running", .num r.running), ("online", .num r.online),
        ("offline", .num r.offline)]) = .wf r
      simp [decodeDVal, canonTriple]
  | raw j =>
      simp only [dvalWF, Bool.and_eq_true, Option.isNone_iff_eq_none] at h
      simp [encodeDVal, decodeDVal, h.2]

theorem foldl_aset_decode (devs : List (String × DVal)) :
    ∀ acc : List (String × DVal),
    (∀ q ∈ devs, alookup acc q.1 = none) →
    nodupKeys devs = true →
    (∀ q ∈ devs, dvalWF q.2 = true) →
    List.foldl (fun acc q => aset acc q.1 (decodeDVal q.2))
      acc (devs.map (fun q => (q.1, encodeDVal q.2))) = acc ++ devs := by
  induction devs with
  | nil => intro acc _ _ _; simp
  | cons q rest ih =>
      intro acc hfresh hnd hwf
      obtain ⟨dev, v⟩ := q
      simp only [nodupKeys, Bool.and_eq_true, Bool.not_eq_true'] at hnd
      simp only [List.map_cons, List.foldl_cons]
      rw [decode_encode v (hwf _ (List.mem_cons_self _ _)),
        aset_of_none _ _ _ (hfresh _ (List.mem_cons_self _ _))]
      rw [ih (acc ++ [(dev, v)]) ?_ hnd.2 (fun x hx => hwf _ (List.mem_cons_of_mem _ hx))]
      · simp
      · intro x hx
        apply alookup_append_none _ _ _ (hfresh _ (List.mem_cons_of_mem _ hx))
        simp [alookup, key_not_in_of_any_false rest dev hnd.1 x hx]

theorem loadDaily_encode (Dly : List (String × List (String × DVal))) :
    ∀ t0 : List (String × List (String × DVal)),
    (∀ p ∈ Dly, alookup t0 p.1 = none) →
    nodupKeys Dly = true →
    (∀ p ∈ Dly, ¬(p.2.isEmpty = true) ∧ nodupKeys p.2 = true ∧
      ∀ q ∈ p.2, dvalWF q.2 = true) →
    loadDailyDates (Dly.map (fun p =>
        (p.1, JTree.obj (p.2.map (fun q => (q.1, encodeDVal q.2)))))) t0 =
      (t0 ++ Dly, true) := by
  induction Dly with
  | nil => intro t0 _ _ _; simp [loadDailyDates]
  | cons p rest ih =>
      intro t0 hfresh hnd hwf
      obtain ⟨date, devs⟩ := p
      obtain ⟨hne, hndin, hwfin⟩ := hwf _ (List.mem_cons_self _ _)
      simp only [nodupKeys, Bool.and_eq_true, Bool.not_eq_true'] at hnd
      rw [List.map_cons, loadDailyDates]
      have hmapne : ((devs.map (fun q => (q.1, encodeDVal q.2))).isEmpty) = false := by
        cases devs with
        | nil => simp at hne
        | cons a b => simp
      rw [if_neg (by simp [hmapne])]
      have hdate : alookup t0 date = none := hfresh _ (List.mem_cons_self _ _)
      rw [hdate]
      simp only [Option.getD_none]
      rw [foldl_aset_decode devs [] (by simp [alookup]) hndin hwfin]
      simp only [List.nil_append]
      rw [aset_of_none _ _ _ hdate]
      rw [ih (t0 ++ [(date, devs)]) ?_ hnd.2
        (fun x hx => hwf _ (List.mem_cons_of_mem _ hx))]
      · simp
      · intro x hx
        apply alookup_append_none _ _ _ (hfresh _ (List.mem_cons_of_mem _ hx))
        simp [alookup, key_not_in_of_any_false rest date hnd.1 x hx]

theorem wfJsonFields_map_num (l : List (String × Int)) :
    wfJsonFields (l.map (fun p => (p.1, JTree.num p.2))) = true := by
  induction l with
  | nil => rfl
  | cons p rest ih =>
      obtain ⟨k, v⟩ := p
      simp [wfJsonFields, wfJson, ih]

theorem wfJson_encodeHistEntry (e : HistEntry) :
    wfJson (encodeHistEntry e) = true := by
  rw [encodeHistEntry_fields]
  exact wfJsonFields_map_num _

theorem wfJsonFields_map {β : Type} (l : List (String × β)) (f : β → JTree)
    (h : ∀ p ∈ l, wfJson (f p.2) = true) :
    wfJsonFields (l.map (fun p => (p.1, f p.2))) = true := by
  induction l with
  | nil => rfl
  | cons p rest ih =>
      simp only [List.map_cons, wfJsonFields, Bool.and_eq_true]
      exact ⟨h p (List.mem_cons_self _ _),
        ih (fun q hq => h q (List.mem_cons_of_mem _ hq))⟩

theorem wfJson_encodeDVal (v : DVal) (h : dvalWF v = true) :
    wfJson (encodeDVal v) = true := by
  cases v with
  | wf r => rfl
  | raw j =>
      simp only [dvalWF, Bool.and_eq_true] at h
      exact h.1

theorem wfJson_save (now : DateTime) (s : TrackerState)
    (h : ∀ p ∈ s.daily_records, ∀ q ∈ p.2, dvalWF q.2 = true) :
    wfJson (save_data now s) = true := by
  have h3 : wfJsonFields (s.history.map (fun p => (p.1, encodeHistEntry p.2))) = true :=
    wfJsonFields_map s.history encodeHistEntry (fun p _ => wfJson_encodeHistEntry p.2)
  have h4 : wfJsonFields (s.daily_records.map (fun p =>
      (p.1, JTree.obj (p.2.map (fun q => (q.1, encodeDVal q.2)))))) = true := by
    apply wfJsonFields_map s.daily_records
      (fun inner => JTree.obj (inner.map (fun q => (q.1, encodeDVal q.2))))
    intro p hp
    exact wfJsonFields_map p.2 encodeDVal (fun q hq => wfJson_encodeDVal q.2 (h p hp q hq))
  simp [save_data, wfJson, wfJsonFields, h3, h4]

/-- C5: writing a snapshot with `save_data` and loading it into a freshly
constructed tracker reproduces the cumulative and daily tables exactly and
restores `start_time` exactly (the ISO string round-trips); the live
transition table is intentionally not persisted and comes back empty. -/
theorem save_load_roundtrip (s : TrackerState) (now T' : DateTime)
    (h : stateWF s = true) :
    load_data (some (save_data now s)) (initTracker T') =
      { start_time := s.start_time, current_status := [],
        history := s.history, daily_records := s.daily_records } := by
  simp only [stateWF, Bool.and_eq_true] at h
  obtain ⟨⟨⟨⟨hval, hndh⟩, hexh⟩, hndd⟩, hdall⟩ := h
  have hdprops : ∀ p ∈ s.daily_records, ¬(p.2.isEmpty = true) ∧
      nodupKeys p.2 = true ∧ ∀ q ∈ p.2, dvalWF q.2 = true := by
    intro p hp
    have := List.all_eq_true.mp hdall p hp
    simp only [Bool.and_eq_true, Bool.not_eq_true'] at this
    exact ⟨by simp [this.1.1], this.1.2, fun q hq => List.all_eq_true.mp this.2 q hq⟩
  have hdly : ∀ p ∈ s.daily_records, ∀ q ∈ p.2, dvalWF q.2 = true :=
    fun p hp => (hdprops p hp).2.2
  have hwfs : wfJson (save_data now s) = true := wfJson_save now s hdly
  have hhist := loadHist_encode s.history [] (fun p _ => rfl) hndh
    (fun p hp => List.all_eq_true.mp hexh p hp)
  have hdaily := loadDaily_encode s.daily_records [] (fun p _ => rfl) hndd hdprops
  have hiso := fromIso_isoFormat s.start_time hval
  have ne1 : (("start_time" : String) = "history") = False := eq_false (by decide)
  have ne2 : (("last_save" : String) = "history") = False := eq_false (by decide)
  have eq3 : (("history" : String) = "history") = True := eq_true rfl
  have ne4 : (("start_time" : String) = "daily_records") = False := eq_false (by decide)
  have ne5 : (("last_save" : String) = "daily_records") = False := eq_false (by decide)
  have ne6 : (("history" : String) = "daily_records") = False := eq_false (by decide)
  have eq7 : (("daily_records" : String) = "daily_records") = True := eq_true rfl
  have eq8 : (("start_time" : String) = "start_time") = True := eq_true rfl
  simp only [load_data, hwfs, if_true, save_data, loadParsed, alookup,
    ne1, ne2, eq3, ne4, ne5, ne6, eq7, eq8, if_false, initTracker]
  rw [hhist]
  simp only [List.nil_append, if_true]
  rw [hdaily]
  simp only [List.nil_append, if_true, loadStart]
  rw [hiso]
  have hwfs2 : wfJson (JTree.obj [("start_time", JTree.str (isoFormat s.start_time)),
      ("last_save", JTree.str (isoFormat now)),
      ("history", JTree.obj (s.history.map (fun p => (p.1, encodeHistEntry p.2)))),
      ("daily_records", JTree.obj (s.daily_records.map (fun p =>
        (p.1, JTree.obj (p.2.map (fun q => (q.1, encodeDVal q.2)))))))]) = true := hwfs
  simp [hwfs2]

def rtSample : TrackerState :=
  { start_time := ⟨2024, 1, 15, 9, 30, 5⟩,
    current_status := [("PI-65", Status.running, (⟨2024, 1, 15, 10, 0, 30⟩ : DateTime))],
    history := [("PI-65", (⟨7, 3, 2, []⟩ : HistEntry)),
                ("PI-66", (⟨0, 11, 4, []⟩ : HistEntry))],
    daily_records := [("2024-01-15", [("PI-65", DVal.wf ⟨7, 3, 2⟩),
      ("PI-66", DVal.wf ⟨0, 11, 4⟩)])] }

theorem save_load_roundtrip_witness :
    stateWF rtSample = true ∧
    load_data (some (save_data ⟨2024, 1, 15, 12, 0, 0⟩ rtSample))
      (initTracker ⟨2024, 6, 1, 0, 0, 0⟩) =
      { start_time := rtSample.start_time, current_status := [],
        history := rtSample.history, daily_records := rtSample.daily_records } := by
  exact ⟨by rfl,
    save_load_roundtrip rtSample ⟨2024, 1, 15, 12, 0, 0⟩ ⟨2024, 6, 1, 0, 0, 0⟩ (by rfl)⟩

/-- C3 (counterexample): a durable file whose `daily_records` section holds a
syntactically invalid JSON fragment for one device is rejected by
`json.load` as a whole, so even a perfectly valid `history` section loads
nothing: the whole load is aborted and the device's counters stay absent. -/
theorem load_loses_history_on_invalid_daily_fragment :
    wfJson (JTree.obj [("PI-65", .obj [("running", .num 100), ("online", .num 0),
      ("offline", .num 0)])]) = true ∧
    load_data (some (JTree.obj
      [("history", .obj [("PI-65", .obj [("running", .num 100), ("online", .num 0),
         ("offline", .num 0)])]),
       ("daily_records", .obj [("2024-01-01", .obj [("PI-65", .bad)])])]))
      (initTracker ⟨2024, 2, 1, 0, 0, 0⟩) = initTracker ⟨2024, 2, 1, 0, 0, 0⟩ ∧
    alookup (load_data (some (JTree.obj
      [("history", .obj [("PI-65", .obj [("running", .num 100), ("online", .num 0),
         ("offline", .num 0)])]),
       ("daily_records", .obj [("2024-01-01", .obj [("PI-65", .bad)])])]))
      (initTracker ⟨2024, 2, 1, 0, 0, 0⟩)).history "PI-65" = none := by
  exact ⟨rfl, rfl, rfl⟩

theorem any_key_map {α β : Type} (l : List (String × α)) (f : String × α → β)
    (k : String) :
    ((l.map (fun p => (p.1, f p))).any fun q => q.1 == k) =
      (l.any fun q => q.1 == k) := by
  induction l with
  | nil => rfl
  | cons p rest ih => simp [List.any_cons, ih]

theorem nodupKeys_map_val {α β : Type} (l : List (String × α)) (f : String × α → β) :
    nodupKeys (l.map (fun p => (p.1, f p))) = nodupKeys l := by
  induction l with
  | nil => rfl
  | cons p rest ih =>
      simp only [List.map_cons, nodupKeys, ih, any_key_map]

/-- C3 (amended): when the durable file does parse as JSON, a malformed
`daily_records` section of any shape cannot block the history load: the
`history` section is processed first, the exception (if any) is caught, and
the cumulative table is fully populated for all devices. -/
theorem load_history_survives_malformed_daily (T0 : DateTime)
    (H : List (String × SRec)) (D : JTree)
    (hD : wfJson D = true) (hnd : nodupKeys H = true) :
    (load_data (some (JTree.obj [("history", JTree.obj (H.map (fun p =>
        (p.1, encodeHistEntry ⟨p.2.running, p.2.online, p.2.offline, []⟩)))),
      ("daily_records", D)])) (initTracker T0)).history =
      H.map (fun p => (p.1, (⟨p.2.running, p.2.online, p.2.offline, []⟩ : HistEntry))) := by
  have hmap : H.map (fun p =>
      (p.1, encodeHistEntry ⟨p.2.running, p.2.online, p.2.offline, []⟩)) =
      (H.map (fun p => (p.1, (⟨p.2.running, p.2.online, p.2.offline, []⟩ : HistEntry)))).map
        (fun p => (p.1, encodeHistEntry p.2)) := by
    rw [List.map_map]
    rfl
  have hndHE : nodupKeys (H.map (fun p =>
      (p.1, (⟨p.2.running, p.2.online, p.2.offline, []⟩ : HistEntry)))) = true := by
    rw [nodupKeys_map_val H (fun p => (⟨p.2.running, p.2.online, p.2.offline, []⟩ : HistEntry))]
    exact hnd
  have hextras : ∀ p ∈ H.map (fun p =>
      (p.1, (⟨p.2.running, p.2.online, p.2.offline, []⟩ : HistEntry))),
      extraWF p.2.extra = true := by
    intro p hp
    obtain ⟨q, _, rfl⟩ := List.mem_map.mp hp
    rfl
  have hhist := loadHist_encode
    (H.map (fun p => (p.1, (⟨p.2.running, p.2.online, p.2.offline, []⟩ : HistEntry))))
    [] (fun p _ => rfl) hndHE hextras
  have hwfh : wfJson (JTree.obj (H.map (fun p =>
      (p.1, encodeHistEntry ⟨p.2.running, p.2.online, p.2.offline, []⟩)))) = true := by
    rw [hmap]
    exact wfJsonFields_map _ encodeHistEntry (fun p _ => wfJson_encodeHistEntry p.2)
  have hwf : wfJson (JTree.obj [("history", JTree.obj (H.map (fun p =>
      (p.1, encodeHistEntry ⟨p.2.running, p.2.online, p.2.offline, []⟩)))),
      ("daily_records", D)]) = true := by
    simp only [wfJson, wfJsonFields, Bool.and_eq_true]
    exact ⟨hwfh, hD, trivial⟩
  have ne1 : (("history" : String) = "daily_records") = False := eq_false (by decide)
  have ne2 : (("history" : String) = "start_time") = False := eq_false (by decide)
  have ne3 : (("daily_records" : String) = "start_time") = False := eq_false (by decide)
  have eqh : (("history" : String) = "history") = True := eq_true rfl
  have eqd : (("daily_records" : String) = "daily_records") = True := eq_true rfl
  simp only [load_data, hwf, if_true, loadParsed, alookup, ne1, ne2, ne3, eqh, eqd,
    if_false, initTracker]
  rw [hmap, hhist]
  simp only [List.nil_append, if_true]
  cases D with
  | num n => rfl
  | str t => rfl
  | bad => rfl
  | arr xs => rfl
  | obj dates =>
      rcases hdp : loadDailyDates dates [] with ⟨t', flag⟩
      cases flag <;> simp

theorem load_history_survives_malformed_daily_witness :
    wfJson (JTree.obj [("2024-01-01", JTree.num 7)]) = true ∧
    nodupKeys [("PI-65", (⟨100, 50, 25⟩ : SRec))] = true ∧
    (load_data (some (JTree.obj [("history",
        JTree.obj ([("PI-65", (⟨100, 50, 25⟩ : SRec))].map (fun p =>
          (p.1, encodeHistEntry ⟨p.2.running, p.2.online, p.2.offline, []⟩)))),
      ("daily_records", JTree.obj [("2024-01-01", JTree.num 7)])]))
      (initTracker ⟨2024, 2, 1, 0, 0, 0⟩)).history =
      [("PI-65", (⟨100, 50, 25⟩ : SRec))].map (fun p =>
        (p.1, (⟨p.2.running, p.2.online, p.2.offline, []⟩ : HistEntry))) := by
  exact ⟨rfl, rfl, load_history_survives_malformed_daily ⟨2024, 2, 1, 0, 0, 0⟩
    [("PI-65", ⟨100, 50, 25⟩)] (JTree.obj [("2024-01-01", JTree.num 7)]) rfl rfl⟩

/-- C7: the three-transition scenario — Offline at T0, Reachable (online) at
T0+10s, Running at T0+25s on an empty ledger, then `stats` at T0+30s —
reports 10s offline, 15s online, 5s running, current status Running with
current duration 5s, formatted `00:00:10` / `00:00:15` / `00:00:05`. -/
theorem three_transition_scenario :
    isOk (runOps
        [.record "PI-65" .offline ⟨2024, 1, 15, 10, 0, 0⟩,
         .record "PI-65" .online ⟨2024, 1, 15, 10, 0, 10⟩,
         .record "PI-65" .running ⟨2024, 1, 15, 10, 0, 25⟩]
        (initTracker ⟨2024, 1, 15, 10, 0, 0⟩)) = true ∧
    (get_device_stats "PI-65" ⟨2024, 1, 15, 10, 0, 30⟩
      (runState (runOps
        [.record "PI-65" .offline ⟨2024, 1, 15, 10, 0, 0⟩,
         .record "PI-65" .online ⟨2024, 1, 15, 10, 0, 10⟩,
         .record "PI-65" .running ⟨2024, 1, 15, 10, 0, 25⟩]
        (initTracker ⟨2024, 1, 15, 10, 0, 0⟩)))).1
    = ⟨"00:00:05", "00:00:15", "00:00:10", 5, 15, 10, .running, "00:00:05"⟩ :=
  ⟨rfl, rfl⟩

